import Mathlib

/-!
Verification development for the AgentBOM detection-and-extraction engine.

This file gives a shallow embedding, in Lean, of the parts of the engine that
the specification's testable properties talk about: the framework detectors
(LangChain/Python, LangChain/TypeScript, AutoGen, CrewAI), the tool resolver,
the schema-extractor registry, the docstring parser and merger, and the
scanner's conversion of detection results to serialized agent records.

Modelling conventions:
* Python regular-expression searches are embedded through a small
  Brzozowski-derivative regex engine (`Rx`); each source pattern is encoded
  as an `Rx` value next to a comment quoting the original pattern.  For
  patterns with capture groups the search is hand-rolled as a scanner whose
  doc comment states the original pattern.
* Python file contents are a pair of the raw text and the result of
  `ast.parse` on that text (`PyFile`); `ast.parse` is an external oracle, so
  the tree is carried as an `Option` (`none` models a `SyntaxError`).
* The file system read by cross-file import resolution is passed explicitly
  (`Fs` for Python files, an association list for TypeScript files).
* Python dicts keep insertion order; they are modelled as association lists.
-/

namespace AgentBom

/-! ### Characters and Python-style string helpers -/

/-- Single-quote character. -/
def sq : Char := Char.ofNat 39

/-- Backtick character. -/
def bq : Char := Char.ofNat 96

/-- Opening curly brace character. -/
def obr : Char := Char.ofNat 123

/-- Closing curly brace character. -/
def cbr : Char := Char.ofNat 125

/-- Carriage return. -/
def crc : Char := Char.ofNat 13

/-- Python `\s` for ASCII input: space, tab, newline, carriage return,
vertical tab, form feed. -/
def pySpaceChar (c : Char) : Bool :=
  c == ' ' || c == '\t' || c == '\n' || c == crc ||
    c == Char.ofNat 11 || c == Char.ofNat 12

/-- Python `\w` for ASCII input: letters, digits, underscore. -/
def pyWordChar (c : Char) : Bool :=
  c.isAlpha || c.isDigit || c == '_'

/-- `str.lower()` on ASCII input. -/
def pyLower (s : String) : String :=
  ⟨s.data.map Char.toLower⟩

/-- `str.strip()`: remove leading and trailing whitespace. -/
def pyStripList (cs : List Char) : List Char :=
  ((cs.dropWhile (fun c => pySpaceChar c)).reverse.dropWhile
    (fun c => pySpaceChar c)).reverse

/-- `str.strip()` on strings. -/
def pyStrip (s : String) : String :=
  ⟨pyStripList s.data⟩

/-- Split a character list at every occurrence of `sep` (like
`str.split(sep)` for a one-character separator). -/
def splitOnChar (sep : Char) (cs : List Char) : List (List Char) :=
  match cs with
  | [] => [[]]
  | c :: rest =>
    let tail := splitOnChar sep rest
    if c == sep then
      [] :: tail
    else
      match tail with
      | [] => [[c]]
      | g :: gs => (c :: g) :: gs

/-! ### A Brzozowski-derivative regex engine

Boolean search semantics: `Rx.search r s` decides whether some substring of
`s` matches `r`, which coincides with the success of Python's
`re.search(r, s)` for the patterns embedded below. -/

inductive Rx where
  | nul
  | eps
  | cls (p : Char → Bool)
  | seq (a b : Rx)
  | alt (a b : Rx)
  | star (a : Rx)

/-- Does the regex accept the empty string? -/
def Rx.nullable : Rx → Bool
  | .nul => false
  | .eps => true
  | .cls _ => false
  | .seq a b => a.nullable && b.nullable
  | .alt a b => a.nullable || b.nullable
  | .star _ => true

/-- Smart sequence constructor (collapses the empty and unit regexes;
language-preserving, used to keep derivative terms small). -/
def Rx.mkSeq : Rx → Rx → Rx
  | .nul, _ => .nul
  | _, .nul => .nul
  | .eps, b => b
  | a, .eps => a
  | a, b => .seq a b

/-- Smart alternation constructor. -/
def Rx.mkAlt : Rx → Rx → Rx
  | .nul, b => b
  | a, .nul => a
  | a, b => .alt a b

/-- Brzozowski derivative with respect to one character. -/
def Rx.deriv : Rx → Char → Rx
  | .nul, _ => .nul
  | .eps, _ => .nul
  | .cls p, c => if p c then .eps else .nul
  | .seq a b, c =>
    if a.nullable then .mkAlt (.mkSeq (a.deriv c) b) (b.deriv c)
    else .mkSeq (a.deriv c) b
  | .alt a b, c => .mkAlt (a.deriv c) (b.deriv c)
  | .star a, c => .mkSeq (a.deriv c) (.star a)

/-- `r` matches some leading segment of `cs` such that the `follow`
predicate holds on the remainder (used to model trailing context such as a
word boundary after a literal). -/
def Rx.matchesFrontF (r : Rx) (cs : List Char) (follow : List Char → Bool) : Bool :=
  match r, cs with
  | .nul, _ => false
  | r, [] => r.nullable && follow []
  | r, c :: rest =>
    (r.nullable && follow (c :: rest)) || (r.deriv c).matchesFrontF rest follow

/-- `r` matches some leading segment of `cs`. -/
def Rx.matchesFront (r : Rx) (cs : List Char) : Bool :=
  r.matchesFrontF cs (fun _ => true)

/-- Search with a follow condition starting at every position. -/
def Rx.searchFromF (r : Rx) (cs : List Char) (follow : List Char → Bool) : Bool :=
  match cs with
  | [] => r.matchesFrontF [] follow
  | _ :: rest => r.matchesFrontF cs follow || r.searchFromF rest follow

/-- Python `re.search` success. -/
def Rx.search (r : Rx) (s : String) : Bool :=
  r.searchFromF s.data (fun _ => true)

/-- `re.search` success where the match must be followed by end-of-input or
a character satisfying `p` (trailing context). -/
def Rx.searchFollow (r : Rx) (s : String) (p : Char → Bool) : Bool :=
  r.searchFromF s.data (fun rest => match rest with | [] => true | c :: _ => p c)

/-- Leftmost position at which `r` matches a leading segment, à la
`re.search(...).start()`. -/
def Rx.searchPosFrom (r : Rx) (cs : List Char) (i : Nat) : Option Nat :=
  match cs with
  | [] => if r.matchesFront [] then some i else none
  | _ :: rest =>
    if r.matchesFront cs then some i else r.searchPosFrom rest (i + 1)

/-- Leftmost match position in a string. -/
def Rx.searchPos (r : Rx) (s : String) : Option Nat :=
  r.searchPosFrom s.data 0

/-- Single-character regex. -/
def Rx.chr (c : Char) : Rx := .cls (· == c)

/-- Literal-string regex. -/
def Rx.str (s : String) : Rx :=
  s.data.foldr (fun c r => .seq (.chr c) r) .eps

/-- Case-insensitive literal-string regex (ASCII). -/
def Rx.strCI (s : String) : Rx :=
  s.data.foldr (fun c r => .seq (.cls (fun x => x.toLower == c.toLower)) r) .eps

/-- Sequence a list of regexes. -/
def Rx.cat (rs : List Rx) : Rx := rs.foldr .seq .eps

/-- `r?`. -/
def Rx.opt (r : Rx) : Rx := .alt r .eps

/-- `r+`. -/
def Rx.plus (r : Rx) : Rx := .seq r (.star r)

/-- `\s*`. -/
def Rx.ws : Rx := .star (.cls pySpaceChar)

/-- `\s+`. -/
def Rx.ws1 : Rx := Rx.plus (.cls pySpaceChar)

/-- `.` without `re.DOTALL` (any character except newline). -/
def Rx.dot : Rx := .cls (· != '\n')

/-- `.` under `re.DOTALL` (any character). -/
def Rx.dotAll : Rx := .cls (fun _ => true)

/-- `\w`. -/
def Rx.word : Rx := .cls pyWordChar

/-- `\w+`. -/
def Rx.word1 : Rx := Rx.plus Rx.word

/-- A character class excluding the listed characters (`[^...]`). -/
def Rx.noneOf (cs : List Char) : Rx := .cls (fun c => !cs.contains c)

/-- Python `needle in hay` substring test. -/
def containsSub (hay needle : String) : Bool :=
  (Rx.str needle).search hay

/-! ### Data model

`ParamInfo` embeds the per-parameter dicts
`{type, required, description, default}` built by the detectors (the
`default` key is absent in Python when no default is known: `Option`).
`ToolInfo` embeds `agentbom.detectors.base.ToolInfo` (the `line_number`
and `raw_definition` fields are never populated by the embedded code paths
and are omitted).  `FuncSig` embeds the dict returned by
`BaseDetector.extract_function_signature` and enriched by
`merge_docstring_info`. -/

structure ParamInfo where
  type : String
  required : Bool
  description : Option String := none
  default : Option String := none
deriving Repr, DecidableEq

structure ReturnInfo where
  type : String
  description : Option String := none
deriving Repr, DecidableEq

structure ToolInfo where
  name : String
  filePath : String
  description : Option String := none
  parameters : List (String × ParamInfo) := []
  returns : Option ReturnInfo := none
deriving Repr, DecidableEq

structure FuncSig where
  parameters : List (String × ParamInfo)
  returns : ReturnInfo
  description : Option String := none
deriving Repr, DecidableEq

/-- Python truthiness of an optional string (`None` and `""` are falsy). -/
def truthy : Option String → Bool
  | none => false
  | some s => s ≠ ""

/-- Ordered-dict update: apply `f` to the entry with key `k` (every
occurrence, matching repeated `dict[k] = ...` writes on the same key),
keeping insertion order. -/
def updateEntry (k : String) (f : ParamInfo → ParamInfo) :
    List (String × ParamInfo) → List (String × ParamInfo)
  | [] => []
  | (n, i) :: rest =>
    (n, if n == k then f i else i) :: updateEntry k f rest

/-- `dict[k] = v` on an insertion-ordered dict: overwrite in place if the
key exists, else append. -/
def setAssoc {α : Type} (k : String) (v : α) :
    List (String × α) → List (String × α)
  | [] => [(k, v)]
  | (n, x) :: rest =>
    if n == k then (n, v) :: rest else (n, x) :: setAssoc k v rest

/-- Association-list lookup (dict read). -/
def getAssoc {α : Type} (k : String) : List (String × α) → Option α
  | [] => none
  | (n, x) :: rest => if n == k then some x else getAssoc k rest

/-- `setAssoc` at parameter dicts. -/
def setEntry (k : String) (v : ParamInfo)
    (l : List (String × ParamInfo)) : List (String × ParamInfo) :=
  setAssoc k v l

/-- `getAssoc` at parameter dicts. -/
def getEntry (k : String) (l : List (String × ParamInfo)) : Option ParamInfo :=
  getAssoc k l

/-! ### Docstring data model (`agentbom.utils.docstring_parser`) -/

/-- Embeds `ParameterDoc`. -/
structure ParameterDoc where
  name : String
  type : Option String := none
  description : Option String := none
  default : Option String := none
  required : Bool := true
deriving Repr, DecidableEq

/-- Embeds `DocstringInfo` (`returns` is the
`{"type": ..., "description": ...}` dict). -/
structure DocstringInfo where
  description : Option String := none
  parameters : List ParameterDoc := []
  returns : Option ReturnInfo := none
deriving Repr, DecidableEq

/-! ### Python AST model

An inductive mirror of the `ast` nodes the detectors inspect.  Function
bodies carry their statements and, separately, the value of
`ast.get_docstring` as an oracle field.  `PyConst` mirrors `ast.Constant`
values that occur in the embedded code paths. -/

inductive PyConst where
  | str (s : String)
  | int (n : Int)
  | bool (b : Bool)
  | none
deriving Repr, DecidableEq

/-- Python `repr` of a constant, as produced inside
`BaseDetector._ast_to_value_string` (string `repr` shown with single
quotes; no escaping is needed for the values in this development). -/
def PyConst.pyRepr : PyConst → String
  | .str s => ⟨sq :: (s.data ++ [sq])⟩
  | .int n => toString n
  | .bool b => if b then "True" else "False"
  | .none => "None"

mutual

inductive PyExpr where
  | name (id : String)
  | const (v : PyConst)
  | attribute (value : PyExpr) (attr : String)
  | subscript (value : PyExpr) (slice : PyExpr)
  | tupleE (elts : List PyExpr)
  | listE (elts : List PyExpr)
  | dictE (entries : List (PyExpr × PyExpr))
  | call (func : PyExpr) (args : List PyExpr) (keywords : List PyKeyword)
  | lambdaE (argNames : List String)
  | binOpOr (left right : PyExpr)
  | uSub (operand : PyExpr)
deriving Repr

/-- `ast.keyword` (its `arg` is `None` for a `**kwargs` splat). -/
inductive PyKeyword where
  | mk (arg : Option String) (value : PyExpr)
deriving Repr

end

mutual

/-- Structural boolean equality on expressions (the derived instance for
this nested inductive does not reduce in the kernel, so it is written by
hand). -/
def PyExpr.beq (x y : PyExpr) : Bool :=
  match x, y with
  | .name a, .name b => a == b
  | .const a, .const b => a == b
  | .attribute v1 a1, .attribute v2 a2 => PyExpr.beq v1 v2 && a1 == a2
  | .subscript v1 s1, .subscript v2 s2 => PyExpr.beq v1 v2 && PyExpr.beq s1 s2
  | .tupleE l1, .tupleE l2 => PyExpr.beqList l1 l2
  | .listE l1, .listE l2 => PyExpr.beqList l1 l2
  | .dictE e1, .dictE e2 => PyExpr.beqPairs e1 e2
  | .call f1 a1 k1, .call f2 a2 k2 =>
    PyExpr.beq f1 f2 && PyExpr.beqList a1 a2 && PyExpr.beqKws k1 k2
  | .lambdaE n1, .lambdaE n2 => n1 == n2
  | .binOpOr l1 r1, .binOpOr l2 r2 => PyExpr.beq l1 l2 && PyExpr.beq r1 r2
  | .uSub e1, .uSub e2 => PyExpr.beq e1 e2
  | _, _ => false
termination_by structural x

def PyExpr.beqList (xs ys : List PyExpr) : Bool :=
  match xs, ys with
  | [], [] => true
  | a :: as2, b :: bs => PyExpr.beq a b && PyExpr.beqList as2 bs
  | _, _ => false
termination_by structural xs

def PyExpr.beqPairs (xs ys : List (PyExpr × PyExpr)) : Bool :=
  match xs, ys with
  | [], [] => true
  | (a1, a2) :: as2, (b1, b2) :: bs =>
    PyExpr.beq a1 b1 && PyExpr.beq a2 b2 && PyExpr.beqPairs as2 bs
  | _, _ => false
termination_by structural xs

def PyExpr.beqKws (xs ys : List PyKeyword) : Bool :=
  match xs, ys with
  | [], [] => true
  | .mk a1 v1 :: as2, .mk a2 v2 :: bs =>
    a1 == a2 && PyExpr.beq v1 v2 && PyExpr.beqKws as2 bs
  | _, _ => false
termination_by structural xs

end

instance : BEq PyExpr := ⟨PyExpr.beq⟩

instance : BEq PyKeyword :=
  ⟨fun k1 k2 =>
    match k1, k2 with
    | .mk a v, .mk b w => a == b && PyExpr.beq v w⟩

def PyKeyword.arg : PyKeyword → Option String
  | .mk a _ => a

def PyKeyword.value : PyKeyword → PyExpr
  | .mk _ v => v

/-- A positional/keyword argument in a `def` (`ast.arg`);
`ann` is its type annotation. -/
structure PyArg where
  arg : String
  ann : Option PyExpr := none
deriving Repr

/-- `ast.arguments` (the pieces read by `extract_function_signature`;
`posonlyargs` never occurs in the embedded inputs). -/
structure PyArguments where
  args : List PyArg := []
  defaults : List PyExpr := []
  vararg : Option PyArg := none
  kwonlyargs : List PyArg := []
  kwDefaults : List (Option PyExpr) := []
  kwarg : Option PyArg := none
deriving Repr

inductive PyStmt where
  | assign (targets : List PyExpr) (value : PyExpr)
  | annAssign (target : PyExpr) (ann : PyExpr) (value : Option PyExpr)
  | functionDef (name : String) (args : PyArguments) (decorators : List PyExpr)
      (docstring : Option String) (returns : Option PyExpr) (body : List PyStmt)
  | classDef (name : String) (bases : List PyExpr) (body : List PyStmt)
  | importFrom (module : Option String) (names : List String) (level : Nat)
  | exprStmt (e : PyExpr)
  | passStmt
deriving Repr

mutual

/-- All statement nodes reachable from a statement (`ast.walk` restricted
to statements; the source walks level-order, but every embedded loop that
consumes the walk either accumulates over all matches or selects a match
that is unique in the inputs considered, so the traversal order is
immaterial). -/
def PyStmt.walk : PyStmt → List PyStmt
  | .classDef n b body => .classDef n b body :: walkStmts body
  | .functionDef n a d doc r body =>
      .functionDef n a d doc r body :: walkStmts body
  | s => [s]

/-- Walk of a list of statements (in particular, a whole module body). -/
def walkStmts : List PyStmt → List PyStmt
  | [] => []
  | s :: ss => s.walk ++ walkStmts ss

end

mutual

/-- All expression nodes reachable from an expression (`ast.walk`
restricted to expressions), pre-order. -/
def PyExpr.walk : PyExpr → List PyExpr
  | .name i => [.name i]
  | .const v => [.const v]
  | .attribute v a => .attribute v a :: v.walk
  | .subscript v s => .subscript v s :: (v.walk ++ s.walk)
  | .tupleE elts => .tupleE elts :: walkExprList elts
  | .listE elts => .listE elts :: walkExprList elts
  | .dictE entries => .dictE entries :: walkExprPairs entries
  | .call f args kws =>
      .call f args kws :: (f.walk ++ walkExprList args ++ walkKwList kws)
  | .lambdaE ns => [.lambdaE ns]
  | .binOpOr l r => .binOpOr l r :: (l.walk ++ r.walk)
  | .uSub e => .uSub e :: e.walk

def walkExprList : List PyExpr → List PyExpr
  | [] => []
  | e :: es => e.walk ++ walkExprList es

def walkExprPairs : List (PyExpr × PyExpr) → List PyExpr
  | [] => []
  | (a, b) :: es => a.walk ++ b.walk ++ walkExprPairs es

def walkKwList : List PyKeyword → List PyExpr
  | [] => []
  | .mk _ v :: ks => v.walk ++ walkKwList ks

end

/-- Top-level expressions occurring directly in one statement. -/
def PyStmt.topExprs : PyStmt → List PyExpr
  | .assign ts v => ts ++ [v]
  | .annAssign t a v => t :: a :: (match v with | some e => [e] | none => [])
  | .functionDef _ _ decs _ rets _ =>
      decs ++ (match rets with | some e => [e] | none => [])
  | .classDef _ bases _ => bases
  | .importFrom _ _ _ => []
  | .exprStmt e => [e]
  | .passStmt => []

/-- All expression nodes in a module (via the statement walk). -/
def walkModuleExprs (body : List PyStmt) : List PyExpr :=
  (walkStmts body).flatMap (fun s => s.topExprs.flatMap PyExpr.walk)

/-- A Python source file: the raw text plus the result of `ast.parse`
(`none` when the text does not parse). -/
structure PyFile where
  text : String
  tree : Option (List PyStmt)

/-! ### Scanner helpers for the capture-group patterns

Python patterns with capture groups are embedded as hand-rolled scanners
built from a few primitives.  Each scanner's doc comment quotes the pattern
it implements. -/

/-- Consume an exact literal, or fail. -/
def expectStr (lit : List Char) (cs : List Char) : Option (List Char) :=
  match lit, cs with
  | [], rest => some rest
  | _ :: _, [] => none
  | l :: ls, c :: rest => if c == l then expectStr ls rest else none

/-- Consume an exact literal case-insensitively (ASCII), or fail. -/
def expectStrCI (lit : List Char) (cs : List Char) : Option (List Char) :=
  match lit, cs with
  | [], rest => some rest
  | _ :: _, [] => none
  | l :: ls, c :: rest => if c.toLower == l.toLower then expectStrCI ls rest else none

/-- Consume `\w+` (at least one word character), returning it. -/
def takeWord (cs : List Char) : Option (List Char × List Char) :=
  let w := cs.takeWhile pyWordChar
  if w.isEmpty then none else some (w, cs.drop w.length)

/-- Consume `\s*`. -/
def skipWs (cs : List Char) : List Char :=
  cs.dropWhile pySpaceChar

/-- Expect one exact character. -/
def expectChar (c : Char) (cs : List Char) : Option (List Char) :=
  match cs with
  | x :: rest => if x == c then some rest else none
  | [] => none

lemma length_dropWhileP (p : Char → Bool) (cs : List Char) :
    (cs.dropWhile p).length ≤ cs.length := by
  induction cs with
  | nil => simp
  | cons c rest ih =>
    by_cases h : p c
    · simp [List.dropWhile, h]; omega
    · simp [List.dropWhile, h]

lemma length_expectStr {lit cs rest : List Char}
    (h : expectStr lit cs = some rest) : rest.length ≤ cs.length := by
  induction lit generalizing cs with
  | nil =>
    simp only [expectStr, Option.some.injEq] at h
    subst h
    exact le_refl _
  | cons l ls ih =>
    cases cs with
    | nil => simp [expectStr] at h
    | cons c cs2 =>
      simp only [expectStr] at h
      split at h
      · have := ih h; simp; omega
      · exact absurd h (by simp)

lemma length_skipWs (cs : List Char) : (skipWs cs).length ≤ cs.length :=
  length_dropWhileP pySpaceChar cs

lemma length_takeWord {cs w rest : List Char}
    (h : takeWord cs = some (w, rest)) : rest.length ≤ cs.length := by
  simp only [takeWord] at h
  split at h
  · exact absurd h (by simp)
  · simp only [Option.some.injEq, Prod.mk.injEq] at h
    obtain ⟨h1, h2⟩ := h
    subst h2
    simp

lemma length_expectStrCI {lit cs rest : List Char}
    (h : expectStrCI lit cs = some rest) : rest.length + lit.length ≤ cs.length := by
  induction lit generalizing cs with
  | nil =>
    simp only [expectStrCI, Option.some.injEq] at h
    subst h
    simp
  | cons l ls ih =>
    cases cs with
    | nil => simp [expectStrCI] at h
    | cons c cs2 =>
      simp only [expectStrCI] at h
      split at h
      · have := ih h; simp; omega
      · exact absurd h (by simp)

/-! ### Docstring parser (`agentbom.utils.docstring_parser.DocstringParser`) -/

namespace DocstringParser

/-- The section keywords of the lookahead in `_parse_google_style`'s
description pattern
`^(.*?)(?=\n\s*(?:Args?|Parameters?|Returns?|Yields?|Raises?|Note|Notes|Example|Examples|See Also|Attributes?|References?):|$)`,
expanded with their trailing colon. -/
def googleDescKws : List String :=
  ["Args:", "Arg:", "Parameters:", "Parameter:", "Returns:", "Return:",
   "Yields:", "Yield:", "Raises:", "Raise:", "Note:", "Notes:",
   "Example:", "Examples:", "See Also:", "Attributes:", "Attribute:",
   "References:", "Reference:"]

/-- Does `\n\s*<kw>` (for one of the given keywords) match at the head of
`cs`?  The `\s*` is forced to the maximal whitespace run because every
keyword starts with a non-whitespace character. -/
def sectionMarkerAt (kws : List String) (cs : List Char) : Bool :=
  match cs with
  | c :: rest =>
    if c == '\n' then
      let r := skipWs rest
      kws.any (fun k => k.data.isPrefixOf r)
    else false
  | [] => false

/-- group(1) of the description pattern: the (lazy-)shortest prefix whose
remainder starts a section marker, or the whole string. -/
def googleDescChars : List Char → List Char
  | [] => []
  | c :: rest =>
    if sectionMarkerAt googleDescKws (c :: rest) then []
    else c :: googleDescChars rest

/-- `\s*\n` with a greedy `\s*`: succeeds when the leading whitespace run
contains a newline and returns the suffix just after the run's last
newline. -/
def dropThroughLastNl (cs : List Char) : Option (List Char) :=
  let run := cs.takeWhile pySpaceChar
  if run.contains '\n' then
    let k := (run.reverse.takeWhile (· != '\n')).length
    some (cs.drop (run.length - k))
  else none

/-- `(?:\s+.*\n?)*` (greedy, `.` not matching newline): the maximal block
of iterations, each consuming a whitespace run (which may span entire
blank lines), the remainder of the line it lands on, and an optional
newline.  Structural recursion on a fuel that the wrapper sets to the
input length (each step consumes at least one character, so the fuel
never runs out). -/
def indentBlockF : Nat → List Char → List Char
  | _, [] => []
  | 0, _ => []
  | fuel + 1, c :: rest =>
    if pySpaceChar c then
      let w := rest.takeWhile pySpaceChar
      let r1 := rest.dropWhile pySpaceChar
      let line := r1.takeWhile (· != '\n')
      let r2 := r1.drop line.length
      if r2.isEmpty then c :: (w ++ line)
      else c :: (w ++ line ++ '\n' :: indentBlockF fuel (r2.drop 1))
    else []

def indentBlock (cs : List Char) : List Char := indentBlockF cs.length cs

/-- `re.match(r"^\s*Returns?:", line)` succeeds. -/
def lineIsReturnsHdr (line : List Char) : Bool :=
  let r := skipWs line
  "Returns:".data.isPrefixOf r || "Return:".data.isPrefixOf r

/-- `\s*:\s*` then the rest of the line as group(3)
(`\s*:\s*(.*)$` on a newline-free line). -/
def colonDesc (cs : List Char) : Option (List Char) :=
  match expectChar ':' (skipWs cs) with
  | some v => some (skipWs v)
  | none => none

/-- Lazy `(.*?)\)` followed by `\s*:\s*(.*)$`: try each closing paren from
the left until the colon part matches. -/
def lazyParen (acc : List Char) : List Char → Option (List Char × List Char)
  | [] => none
  | c :: rest =>
    if c == ')' then
      match colonDesc rest with
      | some desc => some (acc.reverse, desc)
      | none => lazyParen (c :: acc) rest
    else lazyParen (c :: acc) rest

/-- `re.match(r"^\s+(\w+)\s*(?:\((.*?)\))?\s*:\s*(.*)$", line)`:
returns (group1, group2, group3); `group2` is `none` when the paren group
did not participate. -/
def googleParamLine (line : List Char) : Option (String × Option String × String) :=
  match line with
  | [] => none
  | c :: rest =>
    if pySpaceChar c then
      match takeWord ((c :: rest).dropWhile pySpaceChar) with
      | some (name, r2) =>
        let r3 := skipWs r2
        let withParen :=
          match r3 with
          | p :: r4 => if p == '(' then lazyParen [] r4 else none
          | [] => none
        match withParen with
        | some (t, desc) => some (⟨name⟩, some ⟨t⟩, ⟨desc⟩)
        | none =>
          match colonDesc r3 with
          | some desc => some (⟨name⟩, none, ⟨desc⟩)
          | none => none
      | none => none
    else none

/-- One match of `[Dd]efaults?\s+to\s+(.+?)(?:\.|$)` anchored at the head
of `cs` (returns group(1)). -/
def matchDefaultsTo (cs : List Char) : Option (List Char) :=
  match cs with
  | c :: rest =>
    if c == 'D' || c == 'd' then
      match expectStr "efault".data rest with
      | some r1 =>
        let r2 := match r1 with | 's' :: t => t | _ => r1
        match r2 with
        | x :: _ =>
          if pySpaceChar x then
            match expectStr "to".data (skipWs r2) with
            | some r3 =>
              match r3 with
              | y :: _ =>
                if pySpaceChar y then
                  match skipWs r3 with
                  | z :: r5 => some (z :: r5.takeWhile (· != '.'))
                  | [] =>
                    -- the greedy `\s+` backtracks one character into the
                    -- lazy `(.+?)`; the group strips to the empty string
                    some []
                else none
              | [] => none
            | none => none
          else none
        | [] => none
      | none => none
    else none
  | [] => none

/-- `re.search(r"[Dd]efaults?\s+to\s+(.+?)(?:\.|$)", desc)`, leftmost. -/
def searchDefaultsTo : List Char → Option (List Char)
  | [] => none
  | c :: rest =>
    match matchDefaultsTo (c :: rest) with
    | some g => some g
    | none => searchDefaultsTo rest

/-- One match of `,?\s*optional` (IGNORECASE) anchored at the head,
returning the remainder. -/
def matchOptionalAt (cs : List Char) : Option (List Char) :=
  let noComma := fun (u : List Char) => expectStrCI "optional".data (skipWs u)
  match cs with
  | c :: rest =>
    if c == ',' then
      match noComma rest with
      | some r => some r
      | none => noComma (c :: rest)
    else noComma (c :: rest)
  | [] => none

lemma length_expectStrCI_lt {lit cs rest : List Char} (hne : lit ≠ [])
    (h : expectStrCI lit cs = some rest) : rest.length < cs.length := by
  cases lit with
  | nil => exact absurd rfl hne
  | cons l ls =>
    have h1 := length_expectStrCI h
    simp only [List.length_cons] at h1
    omega

lemma length_matchOptionalAt {cs r : List Char}
    (h : matchOptionalAt cs = some r) : r.length < cs.length := by
  have hne : "optional".data ≠ [] := by decide
  unfold matchOptionalAt at h
  cases cs with
  | nil => simp at h
  | cons c rest =>
    simp only at h
    split at h
    · cases hx : expectStrCI "optional".data (skipWs rest) with
      | some v =>
        rw [hx] at h
        simp only [Option.some.injEq] at h
        subst h
        have h1 := length_expectStrCI_lt hne hx
        have h2 := length_skipWs rest
        simp only [List.length_cons]
        omega
      | none =>
        rw [hx] at h
        have h1 := length_expectStrCI_lt hne h
        have h2 := length_skipWs (c :: rest)
        simp only [List.length_cons] at h2 ⊢
        omega
    · have h1 := length_expectStrCI_lt hne h
      have h2 := length_skipWs (c :: rest)
      simp only [List.length_cons] at h2 ⊢
      omega

/-- `re.sub(r",?\s*optional", "", type_info, flags=re.IGNORECASE)`:
remove every (leftmost, non-overlapping) match (fueled; a match consumes
at least one character, see `length_matchOptionalAt`). -/
def removeOptionalF : Nat → List Char → List Char
  | _, [] => []
  | 0, cs => cs
  | fuel + 1, c :: rest =>
    match matchOptionalAt (c :: rest) with
    | some r => removeOptionalF fuel r
    | none => c :: removeOptionalF fuel rest

def removeOptionalChars (cs : List Char) : List Char :=
  removeOptionalF cs.length cs

/-- Terminator lookahead `(?:\n\s*\n|\n\s*\w+:|\Z)` of the Google
`Returns:` pattern, tested at the head of `cs`. -/
def googleRetTermAt (cs : List Char) : Bool :=
  match cs with
  | [] => true
  | c :: t =>
    if c == '\n' then
      (t.takeWhile pySpaceChar).contains '\n' ||
        (match takeWord (skipWs t) with
         | some (_, u) => (expectChar ':' u).isSome
         | none => false)
    else false

/-- Lazy `(.*?)` (DOTALL) up to the first position where the Google
returns terminator matches. -/
def lazyUntilGoogleRet : List Char → List Char
  | [] => []
  | c :: r =>
    if googleRetTermAt (c :: r) then [] else c :: lazyUntilGoogleRet r

/-- `re.match(r"^(\S+?):\s*(.*)$", returns_text, re.DOTALL)`: split at the
first colon within the leading non-whitespace run. -/
def splitTypeColonGo (acc : List Char) : List Char → Option (List Char × List Char)
  | [] => none
  | c :: rest =>
    if c == ':' then some (acc.reverse, rest)
    else if pySpaceChar c then none
    else splitTypeColonGo (c :: acc) rest

def splitTypeColon (cs : List Char) : Option (List Char × List Char) :=
  match cs with
  | [] => none
  | c :: rest =>
    if pySpaceChar c then none else splitTypeColonGo [] (c :: rest)

/-- One anchored match of
`Returns?:\s*\n\s+(.*?)(?:\n\s*\n|\n\s*\w+:|\Z)` (DOTALL),
returning group(1). -/
def googleRetAt (cs : List Char) : Option (List Char) :=
  let after :=
    match expectStr "Returns:".data cs with
    | some r => some r
    | none => expectStr "Return:".data cs
  match after with
  | some r =>
    match dropThroughLastNl r with
    | some r2 =>
      match r2 with
      | x :: _ =>
        if pySpaceChar x then some (lazyUntilGoogleRet (skipWs r2)) else none
      | [] => none
    | none => none
  | none => none

/-- Leftmost search for the Google `Returns:` section; applies the source's
type/description split to the stripped group. -/
def googleFindRet : List Char → Option ReturnInfo
  | [] => none
  | c :: rest =>
    match googleRetAt (c :: rest) with
    | some g =>
      let rt := pyStripList g
      match splitTypeColon rt with
      | some (ty, rest2) =>
        some { type := ⟨ty⟩, description := some (pyStrip ⟨skipWs rest2⟩) }
      | none => some { type := "Any", description := some ⟨rt⟩ }
    | none => googleFindRet rest

/-- `Args?:\s*\n((?:\s+.*\n?)*)` anchored at the head of `cs`. -/
def googleArgsAt (cs : List Char) : Option (List Char) :=
  let after :=
    match expectStr "Args:".data cs with
    | some r => some r
    | none => expectStr "Arg:".data cs
  match after with
  | some r =>
    match dropThroughLastNl r with
    | some r2 => some (indentBlock r2)
    | none => none
  | none => none

/-- `re.search(r"Args?:\s*\n((?:\s+.*\n?)*)", docstring)`, leftmost. -/
def googleFindArgs : List Char → Option (List Char)
  | [] => none
  | c :: rest =>
    match googleArgsAt (c :: rest) with
    | some block => some block
    | none => googleFindArgs rest

/-- Build the `ParameterDoc` for one matched Google `Args:` line from its
three groups, per the loop body of `_parse_google_style`. -/
def googleMkParam (name : String) (ti0 : Option String) (descRaw : String) :
    ParameterDoc :=
  let desc := pyStrip descRaw
  -- `type_info = param_match.group(2) or None`
  let ti0 := match ti0 with
    | some t => if t = "" then none else some t
    | none => none
  let (required1, ti1) :=
    match ti0 with
    | some t =>
      let req := !(containsSub (pyLower t) "optional")
      let tc := pyStrip ⟨removeOptionalChars t.data⟩
      (req, if tc = "" then none else some tc)
    | none => (true, none)
  match searchDefaultsTo desc.data with
  | some g =>
    { name := name, type := ti1, description := some desc,
      default := some (pyStrip ⟨g⟩), required := false }
  | none =>
    { name := name, type := ti1, description := some desc,
      default := none, required := required1 }

/-- The line loop of `_parse_google_style` over `args_text.split("\n")`:
breaks at a `Returns:` header line, starts a new parameter on a match of
the parameter pattern, and otherwise appends continuation text to the
current parameter's description.  The pending parameter is appended when
the loop finishes (also after a break, per the source's post-loop
append). -/
def googleLines : List (List Char) → Option ParameterDoc → List ParameterDoc
  | [], cur => cur.toList
  | line :: rest, cur =>
    if lineIsReturnsHdr line then cur.toList
    else
      match googleParamLine line with
      | some (name, ti, desc) =>
        cur.toList ++ googleLines rest (some (googleMkParam name ti desc))
      | none =>
        let stripped := pyStripList line
        if cur.isSome && !stripped.isEmpty &&
            !("Returns".data.isPrefixOf stripped) then
          let cur2 := cur.map (fun p =>
            { p with description :=
                p.description.map (fun d => d ++ " " ++ (⟨stripped⟩ : String)) })
          googleLines rest cur2
        else
          googleLines rest cur

/-- Embeds `DocstringParser._parse_google_style`. -/
def parseGoogleStyle (docstring : String) : DocstringInfo :=
  let cs := docstring.data
  let desc := pyStrip ⟨googleDescChars cs⟩
  let params :=
    match googleFindArgs cs with
    | some argsText => googleLines (splitOnChar '\n' argsText) none
    | none => []
  { description := some desc, parameters := params, returns := googleFindRet cs }

/-! #### NumPy style -/

/-- The lookahead `(?=\n\s*\w+\s*\n\s*-+|\Z)` of the NumPy section
pattern, tested after an initial newline. -/
def numpyHdrFollows (t : List Char) : Bool :=
  match takeWord (skipWs t) with
  | some (_, t2) =>
    let run := t2.takeWhile pySpaceChar
    run.contains '\n' &&
      (match t2.drop run.length with | '-' :: _ => true | _ => false)
  | none => false

/-- Lazy `((?:.*\n?)*?)` up to the NumPy section lookahead (or all of the
input). -/
def numpyLazy : List Char → List Char
  | [] => []
  | c :: r =>
    if c == '\n' && numpyHdrFollows r then [] else c :: numpyLazy r

/-- One anchored match of
`<kw>\s*\n\s*-+\s*\n((?:.*\n?)*?)(?=\n\s*\w+\s*\n\s*-+|\Z)` where `<kw>`
is `Parameters?` or `Returns?`; returns group(1). -/
def numpySectionAt (kwLong kwShort : List Char) (cs : List Char) :
    Option (List Char) :=
  let after :=
    match expectStr kwLong cs with
    | some r => some r
    | none => expectStr kwShort cs
  match after with
  | some r =>
    let run := r.takeWhile pySpaceChar
    if run.contains '\n' then
      let r2 := r.drop run.length
      match r2 with
      | '-' :: _ =>
        let dashes := r2.takeWhile (· == '-')
        match dropThroughLastNl (r2.drop dashes.length) with
        | some r4 => some (numpyLazy r4)
        | none => none
      | _ => none
    else none
  | none => none

/-- Leftmost search for a NumPy underlined section. -/
def numpyFindSection (kwLong kwShort : List Char) : List Char → Option (List Char)
  | [] => none
  | c :: rest =>
    match numpySectionAt kwLong kwShort (c :: rest) with
    | some g => some g
    | none => numpyFindSection kwLong kwShort rest

/-- One anchored match (at a line start) of the NumPy parameter pattern
`^(\w+)\s*:\s*(.*?)(?:\n|$)((?:\s+.*\n?)*)`; returns
(group1, group2, group3, rest-of-input). -/
def numpyEntryAt (cs : List Char) : Option (String × List Char × List Char × List Char) :=
  match takeWord cs with
  | some (name, r1) =>
    match expectChar ':' (skipWs r1) with
    | some r2 =>
      let t2 := skipWs r2
      let desc0 := t2.takeWhile (· != '\n')
      let r3 := t2.drop desc0.length
      let r4 := match r3 with | _ :: t => t | [] => r3
      let block := indentBlock r4
      some (⟨name⟩, desc0, block, r4.drop block.length)
    | none => none
  | none => none

/-- `re.finditer` of the NumPy parameter pattern with `re.MULTILINE`:
scan line starts, consuming each match's indented block (fuel is the input
length; every step consumes at least one character). -/
def numpyScan : Nat → List Char → List (String × List Char × List Char)
  | _, [] => []
  | 0, _ => []
  | fuel + 1, cs =>
    match numpyEntryAt cs with
    | some (n, t, block, rest) => (n, t, block) :: numpyScan fuel rest
    | none =>
      match cs.dropWhile (· != '\n') with
      | _ :: rest => numpyScan fuel rest
      | [] => []

/-- One anchored match of `[Dd]efault(?:s)?\s*[:=]\s*(.+?)(?:\.|$)`
(the NumPy/Sphinx default-value pattern); returns group(1). -/
def matchDefaultCE (cs : List Char) : Option (List Char) :=
  match cs with
  | c :: rest =>
    if c == 'D' || c == 'd' then
      match expectStr "efault".data rest with
      | some r1 =>
        let r2 := match r1 with | 's' :: t => t | _ => r1
        let r3 := skipWs r2
        match r3 with
        | x :: r4 =>
          if x == ':' || x == '=' then
            match skipWs r4 with
            | z :: t => some (z :: t.takeWhile (· != '.'))
            | [] =>
              -- the greedy `\s*` backtracks one whitespace character into
              -- the lazy `(.+?)` when possible; the group strips to ""
              if r4.isEmpty then none else some []
          else none
        | [] => none
      | none => none
    else none
  | [] => none

/-- Leftmost `re.search` of the NumPy/Sphinx default pattern. -/
def searchDefaultCE : List Char → Option (List Char)
  | [] => none
  | c :: rest =>
    match matchDefaultCE (c :: rest) with
    | some g => some g
    | none => searchDefaultCE rest

/-- The per-entry body of `_parse_numpy_style`'s parameter loop. -/
def numpyMkParam (name : String) (tRaw : List Char) (block : List Char) :
    ParameterDoc :=
  let typeInfo := pyStrip ⟨tRaw⟩
  let desc := if block.isEmpty then "" else pyStrip ⟨block⟩
  let (required1, typeInfo1) :=
    if containsSub (pyLower typeInfo) "optional" then
      (false, pyStrip ⟨removeOptionalChars typeInfo.data⟩)
    else (true, typeInfo)
  match searchDefaultCE desc.data with
  | some g =>
    { name := name,
      type := if typeInfo1 = "" then none else some typeInfo1,
      description := some desc, default := some (pyStrip ⟨g⟩),
      required := false }
  | none =>
    { name := name,
      type := if typeInfo1 = "" then none else some typeInfo1,
      description := some desc, default := none, required := required1 }

/-- Embeds `DocstringParser._parse_numpy_style`. -/
def parseNumpyStyle (docstring : String) : DocstringInfo :=
  let cs := docstring.data
  let params :=
    match numpyFindSection "Parameters".data "Parameter".data cs with
    | some sectionText =>
      (numpyScan sectionText.length sectionText).map
        (fun (n, t, b) => numpyMkParam n t b)
    | none => []
  let rets :=
    match numpyFindSection "Returns".data "Return".data cs with
    | some sectionText =>
      let rt := pyStripList sectionText
      let lines := splitOnChar '\n' rt
      match lines with
      | first :: rest =>
        let typeLine := pyStripList first
        let desc :=
          pyStrip ⟨(List.intercalate "\n".data (rest.map pyStripList))⟩
        some { type := if typeLine.isEmpty then "Any" else ⟨typeLine⟩,
               description := some desc }
      | [] => Option.none
    | none => none
  { description := none, parameters := params, returns := rets }

/-! #### Sphinx style -/

/-- One anchored match of `:<tag>\s+(\w+):\s*(.*?)(?=:|\Z)` (DOTALL) with
`<tag>` ∈ {param, type}; returns (group1, group2, rest-at-match-end). -/
def sphinxFieldAt (tag : List Char) (cs : List Char) :
    Option (String × List Char × List Char) :=
  match expectChar ':' cs with
  | some r0 =>
    match expectStr tag r0 with
    | some r =>
      match r with
      | x :: _ =>
        if pySpaceChar x then
          match takeWord (skipWs r) with
          | some (name, r2) =>
            match expectChar ':' r2 with
            | some r3 =>
              let r4 := skipWs r3
              let g := r4.takeWhile (· != ':')
              some (⟨name⟩, g, r4.drop g.length)
            | none => none
          | none => none
        else none
      | [] => none
    | none => none
  | none => none

/-- `re.finditer` of a Sphinx field pattern (fueled scan; a match consumes
at least the `:<tag>` prefix). -/
def sphinxScan (tag : List Char) : Nat → List Char → List (String × List Char)
  | _, [] => []
  | 0, _ => []
  | fuel + 1, c :: rest =>
    match sphinxFieldAt tag (c :: rest) with
    | some (n, g, after) => (n, g) :: sphinxScan tag fuel after
    | none => sphinxScan tag fuel rest

/-- One anchored match of `:return(?:s)?:\s*(.*?)(?=:|\Z)` or of
`:rtype:\s*(.*?)(?=:|\Z)` depending on the given prefix; returns
group(1). -/
def sphinxRetAt (pre : List Char) (allowS : Bool) (cs : List Char) :
    Option (List Char) :=
  match expectStr pre cs with
  | some r =>
    let r1 := if allowS then (match r with | 's' :: t => t | _ => r) else r
    match expectChar ':' r1 with
    | some r2 =>
      let r3 := skipWs r2
      some (r3.takeWhile (· != ':'))
    | none => none
  | none => none

/-- Leftmost `re.search` for a Sphinx return field. -/
def sphinxFindRet (pre : List Char) (allowS : Bool) : List Char → Option (List Char)
  | [] => none
  | c :: rest =>
    match sphinxRetAt pre allowS (c :: rest) with
    | some g => some g
    | none => sphinxFindRet pre allowS rest

/-- The per-name body of `_parse_sphinx_style`'s combination loop. -/
def sphinxMkParam (descs types : List (String × String)) (name : String) :
    ParameterDoc :=
  let desc := (getAssoc name descs).getD ""
  let ti0 := getAssoc name types
  let (required1, ti1) :=
    match ti0 with
    | some t =>
      if containsSub (pyLower t) "optional" then
        (false, some (pyStrip ⟨removeOptionalChars t.data⟩))
      else (true, some t)
    | none => (true, none)
  let dflt :=
    if desc ≠ "" then
      match searchDefaultCE desc.data with
      | some g => some (pyStrip ⟨g⟩)
      | none => none
    else none
  { name := name, type := ti1, description := some desc,
    default := dflt, required := if dflt.isSome then false else required1 }

/-- Embeds `DocstringParser._parse_sphinx_style`.  The source iterates
`set(list(param_descs) + list(param_types))`, whose order is a CPython
implementation detail; the embedding iterates the names in first-occurrence
order, which is the order CPython produces for the inputs considered in
this development. -/
def parseSphinxStyle (docstring : String) : DocstringInfo :=
  let cs := docstring.data
  let descPairs := (sphinxScan "param".data cs.length cs).map
    (fun (n, g) => (n, pyStrip ⟨g⟩))
  let typePairs := (sphinxScan "type".data cs.length cs).map
    (fun (n, g) => (n, pyStrip ⟨g⟩))
  let descs := descPairs.foldl (fun d (nv : String × String) => setAssoc nv.1 nv.2 d) []
  let types := typePairs.foldl (fun d (nv : String × String) => setAssoc nv.1 nv.2 d) []
  let allNames := ((descs.map Prod.fst) ++ (types.map Prod.fst)).dedup
  let params := allNames.map (sphinxMkParam descs types)
  let retDesc :=
    match sphinxFindRet ":return".data true cs with
    | some g => some (pyStrip ⟨g⟩)
    | none => none
  let retType :=
    match sphinxFindRet ":rtype".data false cs with
    | some g => some (pyStrip ⟨g⟩)
    | none => none
  let rets :=
    if truthy retDesc || truthy retType then
      some { type := match retType with
               | some t => if t ≠ "" then t else "Any"
               | none => "Any",
             description := some ((retDesc.filter (· ≠ "")).getD "") }
    else none
  { description := none, parameters := params, returns := rets }

/-! #### `_extract_description` and `parse` -/

/-- Section keywords of `_extract_description`'s marker list (note this
list differs slightly from the Google lookahead list: it has `Note:` but
not `Notes:`). -/
def descSectionKws : List String :=
  ["Args:", "Arg:", "Parameters:", "Parameter:", "Returns:", "Return:",
   "Yields:", "Yield:", "Raises:", "Raise:", "Note:", "Example:",
   "Examples:", "See Also:", "Attributes:", "Attribute:",
   "References:", "Reference:"]

/-- Does one of `_extract_description`'s section markers match at the head
of `cs`?  (`\n\s*<kw>:`, `\n\s*-{3,}`, `:param\s+\w+:`, `:type\s+\w+:`,
`:return:`, `:rtype:`.) -/
def descMarkerAt (cs : List Char) : Bool :=
  match cs with
  | [] => false
  | c :: t =>
    if c == '\n' then
      let r := skipWs t
      descSectionKws.any (fun k => k.data.isPrefixOf r) ||
        (r.takeWhile (· == '-')).length ≥ 3
    else if c == ':' then
      (match sphinxFieldAt "param".data (c :: t) with
       | some _ => true | none => false) ||
      (match sphinxFieldAt "type".data (c :: t) with
       | some _ => true | none => false) ||
      ":return:".data.isPrefixOf (c :: t) ||
      ":rtype:".data.isPrefixOf (c :: t)
    else false

/-- Prefix of `cs` up to the first section marker. -/
def descPrefixChars : List Char → List Char
  | [] => []
  | c :: rest =>
    if descMarkerAt (c :: rest) then [] else c :: descPrefixChars rest

/-- Embeds `DocstringParser._extract_description`. -/
def extractDescription (docstring : String) : Option String :=
  let desc := pyStripList (descPrefixChars docstring.data)
  let lines := (splitOnChar '\n' desc).map pyStripList
  let joined := List.intercalate " ".data (lines.filter (fun l => !l.isEmpty))
  if joined.isEmpty then none else some ⟨joined⟩

/-- Embeds `DocstringParser.parse`: Google, then NumPy, then Sphinx, each
adopted when its parameter list is non-empty; the description falls back to
`_extract_description` when the adopted convention left it falsy. -/
def parse (docstring : String) : DocstringInfo :=
  if docstring = "" then {} else
  let d := pyStrip docstring
  let info := parseGoogleStyle d
  let info :=
    if info.parameters.isEmpty then
      let n := parseNumpyStyle d
      if !n.parameters.isEmpty then n else info
    else info
  let info :=
    if info.parameters.isEmpty then
      let sp := parseSphinxStyle d
      if !sp.parameters.isEmpty then sp else info
    else info
  if truthy info.description then info
  else { info with description := extractDescription d }

end DocstringParser

/-! ### `BaseDetector.merge_docstring_info` -/

/-- The per-field body of the merge loop (base.py lines 369-382):
description is written when the docstring has one; type is written only
when the structural type is the `"Any"` sentinel; default and required are
written whenever the docstring carries a default. -/
def mergeFn (pd : ParameterDoc) (p0 : ParamInfo) : ParamInfo :=
  let p1 := if truthy pd.description then
      { p0 with description := pd.description } else p0
  let p2 := match pd.type with
    | some t => if t ≠ "" ∧ p1.type = "Any" then { p1 with type := t } else p1
    | none => p1
  match pd.default with
  | some d => { p2 with default := some d, required := false }
  | none => p2

/-- The per-`param_doc` update of the merge loop (base.py lines 367-382). -/
def mergeParamDoc (params : List (String × ParamInfo)) (pd : ParameterDoc) :
    List (String × ParamInfo) :=
  if (getEntry pd.name params).isSome then
    updateEntry pd.name (mergeFn pd) params
  else params

/-- The merge of a parsed `DocstringInfo` into a structural signature
(the body of `merge_docstring_info` after parsing). -/
def mergeParsedDoc (sig : FuncSig) (di : DocstringInfo) : FuncSig :=
  let params := di.parameters.foldl mergeParamDoc sig.parameters
  let rets :=
    match di.returns with
    | some r =>
      let r1 := if truthy r.description then
          { sig.returns with description := r.description } else sig.returns
      if r.type ≠ "" ∧ r1.type = "Any" then { r1 with type := r.type } else r1
    | none => sig.returns
  let desc := if truthy di.description then di.description else sig.description
  { parameters := params, returns := rets, description := desc }

/-- Embeds `BaseDetector.merge_docstring_info`. -/
def mergeDocstringInfo (sig : FuncSig) (docstring : Option String) : FuncSig :=
  match docstring with
  | none => sig
  | some d => if d = "" then sig else mergeParsedDoc sig (DocstringParser.parse d)

/-! ### `BaseDetector` static utilities -/

/-- Embeds `BaseDetector.extract_string_value` (the legacy `ast.Str`
branch is subsumed by the constant branch). -/
def extractStringValue : PyExpr → Option String
  | .const (.str s) => some s
  | _ => none

/-- Embeds `BaseDetector.extract_list_items`. -/
def extractListItems : PyExpr → List String
  | .listE elts => elts.filterMap itemName
  | .tupleE elts => elts.filterMap itemName
  | _ => []
where itemName : PyExpr → Option String
  | .name i => some i
  | .call (.name f) _ _ => some f
  | _ => none

/-- Wrap a string in curly braces (for the dict branch of
`_ast_to_value_string`). -/
def mkBraced (s : String) : String := ⟨obr :: (s.data ++ [cbr])⟩

mutual

/-- Embeds `BaseDetector._ast_to_type_string` on the modern (`ast` ≥ 3.9)
node shapes.  The Python-3.8 `ast.Index`/`ast.Str` compatibility branches
cannot occur.  The `hasattr(node.slice, "value")` dispatch fires for
subscripts whose slice is a constant, an attribute, or a nested subscript
(the ast nodes with a `value` attribute); for a constant slice the
recursive call receives the raw constant and falls through to `"Any"`. -/
def astToTypeString : PyExpr → String
  | .name i => i
  | .const v => v.pyRepr
  | .subscript v s =>
    let base := astToTypeString v
    match s with
    | .const _ => base ++ "[" ++ "Any" ++ "]"
    | .subscript v2 _ => base ++ "[" ++ astToTypeString v2 ++ "]"
    | .attribute v2 _ => base ++ "[" ++ astToTypeString v2 ++ "]"
    | .tupleE elts => base ++ "[" ++ joinTypeStrings elts ++ "]"
    | other => base ++ "[" ++ astToTypeString other ++ "]"
  | .binOpOr l r => astToTypeString l ++ " | " ++ astToTypeString r
  | .tupleE elts => "Tuple[" ++ joinTypeStrings elts ++ "]"
  | .attribute v a => astToTypeString v ++ "." ++ a
  | _ => "Any"

/-- `", ".join` of recursive type strings. -/
def joinTypeStrings : List PyExpr → String
  | [] => ""
  | [e] => astToTypeString e
  | e :: rest => astToTypeString e ++ ", " ++ joinTypeStrings rest

end

mutual

/-- Embeds `BaseDetector._ast_to_value_string` (legacy `ast.Str`/`ast.Num`/
`ast.NameConstant` branches subsumed by the constant branch). -/
def astToValueString : PyExpr → String
  | .const v => v.pyRepr
  | .name i => i
  | .uSub e => "-" ++ astToValueString e
  | .listE elts => "[" ++ joinValueStrings elts ++ "]"
  | .tupleE elts => "(" ++ joinValueStrings elts ++ ")"
  | .dictE entries => mkBraced (joinDictStrings entries)
  | _ => "..."

def joinValueStrings : List PyExpr → String
  | [] => ""
  | [e] => astToValueString e
  | e :: rest => astToValueString e ++ ", " ++ joinValueStrings rest

def joinDictStrings : List (PyExpr × PyExpr) → String
  | [] => ""
  | [(k, v)] => astToValueString k ++ ": " ++ astToValueString v
  | (k, v) :: rest =>
    astToValueString k ++ ": " ++ astToValueString v ++ ", " ++ joinDictStrings rest

end

/-- The per-positional-argument record of `extract_function_signature`. -/
def posParamInfo (defaultsOffset : Nat) (defaults : List PyExpr) (i : Nat)
    (a : PyArg) : ParamInfo :=
  let base : ParamInfo :=
    { type := (match a.ann with
        | some ann => astToTypeString ann
        | none => "Any"),
      required := decide (i < defaultsOffset), description := none }
  if defaultsOffset ≤ i && i - defaultsOffset < defaults.length then
    { base with
        default := some (astToValueString (defaults.getD (i - defaultsOffset) (.name ""))),
        required := false }
  else base

/-- The per-keyword-only-argument record of `extract_function_signature`. -/
def kwOnlyParamInfo (kwOffset : Nat) (kwDefaults : List (Option PyExpr)) (i : Nat)
    (a : PyArg) : ParamInfo :=
  let withDefault :=
    if kwOffset ≤ i then
      match kwDefaults.getD (i - kwOffset) none with
      | some d => some (astToValueString d)
      | none => none
    else none
  { type := (match a.ann with
      | some ann => astToTypeString ann
      | none => "Any"),
    required := withDefault.isNone, description := none,
    default := withDefault }

/-- Embeds `BaseDetector.extract_function_signature`: positional arguments
with their defaults-offset bookkeeping, the `*args` entry, keyword-only
arguments, the `**kwargs` entry, and the return type. -/
def extractFunctionSignature (args : PyArguments) (rets : Option PyExpr) : FuncSig :=
  let defaultsOffset := args.args.length - args.defaults.length
  let params0 := (args.args.enum).foldl
    (fun ps (ia : Nat × PyArg) =>
      setEntry ia.2.arg (posParamInfo defaultsOffset args.defaults ia.1 ia.2) ps)
    []
  let params1 :=
    match args.vararg with
    | some v =>
      setEntry ("*" ++ v.arg)
        { type := (match v.ann with
            | some ann => astToTypeString ann
            | none => "Any"),
          required := false,
          description := some "Variable positional arguments" } params0
    | none => params0
  let kwOffset := args.kwonlyargs.length - args.kwDefaults.length
  let params2 := (args.kwonlyargs.enum).foldl
    (fun ps (ia : Nat × PyArg) =>
      setEntry ia.2.arg (kwOnlyParamInfo kwOffset args.kwDefaults ia.1 ia.2) ps)
    params1
  let params3 :=
    match args.kwarg with
    | some v =>
      setEntry ("**" ++ v.arg)
        { type := (match v.ann with
            | some ann => astToTypeString ann
            | none => "Any"),
          required := false,
          description := some "Variable keyword arguments" } params2
    | none => params2
  { parameters := params3,
    returns :=
      { type := (match rets with
          | some r =>
            let t := astToTypeString r
            if t = "" then "Any" else t
          | none => "Any"),
        description := none } }

/-! ### Schema extractors (`agentbom.detectors.schema_extractors`) -/

/-- Double-quote character. -/
def dqc : Char := Char.ofNat 34

/-- Is `c` one of the quote characters of the class `["\']`? -/
def isQuote (c : Char) : Bool := c == dqc || c == sq

/-- `["\']` as a regex class. -/
def Rx.quote : Rx := .cls isQuote

/-- `ZodSchemaExtractor.can_extract`: any of the five Zod indicator
patterns matches
(`import\s*\x7b[^\x7d]*z[^\x7d]*\x7d\s*from\s*["\']zod["\']`,
`from\s+["\']zod["\']`, `z\.object\s*\(`, `z\.string\s*\(`,
`z\.number\s*\(`). -/
def zodCanExtract (content : String) : Bool :=
  let importPat : Rx := .cat [.str "import", .ws, .chr obr, .star (.noneOf [cbr]),
    .chr 'z', .star (.noneOf [cbr]), .chr cbr, .ws, .str "from", .ws,
    .quote, .str "zod", .quote]
  let fromPat : Rx := .cat [.str "from", .ws1, .quote, .str "zod", .quote]
  let callPat := fun (f : String) => Rx.cat [.str f, .ws, .chr '(']
  importPat.search content || fromPat.search content ||
    (callPat "z.object").search content || (callPat "z.string").search content ||
    (callPat "z.number").search content

/-- Modifier characters of the Zod/Yup field pattern: group(4) is
`([^,\n]*?)` with lookahead `(?=,|\n|$|\x7d)`, i.e. everything up to the
first comma, newline, or closing brace. -/
def zodModChar (c : Char) : Bool :=
  !(c == ',' || c == '\n' || c == cbr)

/-- One anchored match of the Zod field pattern
`(\w+)\s*:\s*z\.(\w+)\s*\(([^)]*)\)([^,\n]*?)(?=,|\n|$|\x7d)`;
returns (group1, group2, group3, group4, rest-at-match-end). -/
def zodFieldAt (cs : List Char) :
    Option (String × String × String × String × List Char) :=
  match takeWord cs with
  | some (name, r1) =>
    match expectChar ':' (skipWs r1) with
    | some r2 =>
      match expectStr "z.".data (skipWs r2) with
      | some r3 =>
        match takeWord r3 with
        | some (ftype, r4) =>
          match expectChar '(' (skipWs r4) with
          | some r5 =>
            let fargs := r5.takeWhile (· != ')')
            match expectChar ')' (r5.drop fargs.length) with
            | some r6 =>
              let mods := r6.takeWhile zodModChar
              some (⟨name⟩, ⟨ftype⟩, ⟨fargs⟩, ⟨mods⟩, r6.drop mods.length)
            | none => none
          | none => none
        | none => none
      | none => none
    | none => none
  | none => none

/-- `re.finditer` of the Zod field pattern (fueled scan; a match consumes
at least the field name). -/
def zodScan : Nat → List Char → List (String × String × String × String)
  | _, [] => []
  | 0, _ => []
  | fuel + 1, c :: rest =>
    match zodFieldAt (c :: rest) with
    | some (n, t, a, m, after) => (n, t, a, m) :: zodScan fuel after
    | none => zodScan fuel rest

/-- `\.describe\s*\(\s*["\']([^"\']+)["\']` anchored at the head. -/
def describeQuotedAt (cs : List Char) : Option (List Char) :=
  match expectStr ".describe".data cs with
  | some r1 =>
    match expectChar '(' (skipWs r1) with
    | some r2 =>
      match skipWs r2 with
      | q :: r3 =>
        if isQuote q then
          let g := r3.takeWhile (fun c => !isQuote c)
          if g.isEmpty then none
          else
            match r3.drop g.length with
            | q2 :: _ => if isQuote q2 then some g else none
            | [] => none
        else none
      | [] => none
    | none => none
  | none => none

/-- `\.describe\s*\(\s*\x60([^\x60]+)\x60` (template string) anchored at
the head. -/
def describeTemplateAt (cs : List Char) : Option (List Char) :=
  match expectStr ".describe".data cs with
  | some r1 =>
    match expectChar '(' (skipWs r1) with
    | some r2 =>
      match skipWs r2 with
      | q :: r3 =>
        if q == bq then
          let g := r3.takeWhile (· != bq)
          if g.isEmpty then none
          else
            match r3.drop g.length with
            | q2 :: _ => if q2 == bq then some g else none
            | [] => none
        else none
      | [] => none
    | none => none
  | none => none

/-- Leftmost search with an anchored matcher. -/
def searchWith (m : List Char → Option (List Char)) : List Char → Option (List Char)
  | [] => m []
  | c :: rest =>
    match m (c :: rest) with
    | some g => some g
    | none => searchWith m rest

/-- The Zod type map of `ZodSchemaExtractor.extract_params`. -/
def zodTypeMap (t : String) : String :=
  if t = "string" then "str"
  else if t = "number" then "number"
  else if t = "boolean" then "bool"
  else if t = "object" then "object"
  else if t = "array" then "array"
  else if t = "date" then "date"
  else if t = "any" then "any"
  else if t = "literal" then "literal"
  else if t = "enum" then "enum"
  else t

/-- The per-field record built by `ZodSchemaExtractor.extract_params` from
the four groups (args and modifiers are stripped first, as in the
source). -/
def zodInfoOf (ftype argsRaw modsRaw : String) : ParamInfo :=
  let fargs := pyStrip argsRaw
  let mods := pyStrip modsRaw
  let ptype :=
    if ftype = "literal" && fargs ≠ "" then "literal<" ++ fargs ++ ">"
    else if ftype = "enum" && fargs ≠ "" then "enum<" ++ fargs ++ ">"
    else if ftype = "array" && fargs ≠ "" then
      (if containsSub fargs "z.object" then "array<object>"
       else if containsSub fargs "z.string" then "array<str>"
       else "array")
    else zodTypeMap ftype
  let required := !(containsSub mods ".optional()")
  let desc :=
    match searchWith describeQuotedAt mods.data with
    | some g => some (⟨g⟩ : String)
    | none =>
      match searchWith describeTemplateAt mods.data with
      | some g => some (pyStrip ⟨g⟩)
      | none => none
  { type := ptype, required := required, description := desc }

/-- Embeds `ZodSchemaExtractor.extract_params` (content is unused by the
source beyond its signature). -/
def zodExtractParams (_content schemaBody : String) : List (String × ParamInfo) :=
  (zodScan schemaBody.data.length schemaBody.data).foldl
    (fun ps (m : String × String × String × String) =>
      setEntry m.1 (zodInfoOf m.2.1 m.2.2.1 m.2.2.2) ps) []

/-- `YupSchemaExtractor.can_extract` (all four patterns carry
`re.IGNORECASE`). -/
def yupCanExtract (content : String) : Bool :=
  let importPat : Rx := .cat [.strCI "import", .ws, .chr obr,
    .star (.noneOf [cbr]), .strCI "yup", .star (.noneOf [cbr]), .chr cbr]
  let fromPat : Rx := .cat [.strCI "from", .ws1, .quote, .strCI "yup", .quote]
  let callPat := fun (f : String) => Rx.cat [.strCI f, .ws, .chr '(']
  importPat.search content || fromPat.search content ||
    (callPat "yup.object").search content || (callPat "yup.string").search content

/-- One anchored match of the Yup field pattern
`(\w+)\s*:\s*yup\.(\w+)\s*\(\)([^,\n]*?)(?=,|\n|$|\x7d)`. -/
def yupFieldAt (cs : List Char) :
    Option (String × String × String × List Char) :=
  match takeWord cs with
  | some (name, r1) =>
    match expectChar ':' (skipWs r1) with
    | some r2 =>
      match expectStr "yup.".data (skipWs r2) with
      | some r3 =>
        match takeWord r3 with
        | some (ftype, r4) =>
          match expectStr "()".data (skipWs r4) with
          | some r6 =>
            let mods := r6.takeWhile zodModChar
            some (⟨name⟩, ⟨ftype⟩, ⟨mods⟩, r6.drop mods.length)
          | none => none
        | none => none
      | none => none
    | none => none
  | none => none

def yupScan : Nat → List Char → List (String × String × String)
  | _, [] => []
  | 0, _ => []
  | fuel + 1, c :: rest =>
    match yupFieldAt (c :: rest) with
    | some (n, t, m, after) => (n, t, m) :: yupScan fuel after
    | none => yupScan fuel rest

/-- The Yup type map. -/
def yupTypeMap (t : String) : String :=
  if t = "string" then "str"
  else if t = "number" then "number"
  else if t = "boolean" then "bool"
  else if t = "object" then "object"
  else if t = "array" then "array"
  else if t = "date" then "date"
  else t

/-- `\.label\s*\(\s*["\']([^"\']+)["\']` anchored at the head. -/
def labelQuotedAt (cs : List Char) : Option (List Char) :=
  match expectStr ".label".data cs with
  | some r1 =>
    match expectChar '(' (skipWs r1) with
    | some r2 =>
      match skipWs r2 with
      | q :: r3 =>
        if isQuote q then
          let g := r3.takeWhile (fun c => !isQuote c)
          if g.isEmpty then none
          else
            match r3.drop g.length with
            | q2 :: _ => if isQuote q2 then some g else none
            | [] => none
        else none
      | [] => none
    | none => none
  | none => none

/-- The per-field record of `YupSchemaExtractor.extract_params`. -/
def yupInfoOf (ftype modsRaw : String) : ParamInfo :=
  let mods := pyStrip modsRaw
  let required :=
    !(containsSub mods ".optional()" || containsSub mods ".notRequired()")
  let desc :=
    match searchWith labelQuotedAt mods.data with
    | some g => some (⟨g⟩ : String)
    | none => none
  { type := yupTypeMap ftype, required := required, description := desc }

/-- Embeds `YupSchemaExtractor.extract_params`. -/
def yupExtractParams (_content schemaBody : String) : List (String × ParamInfo) :=
  (yupScan schemaBody.data.length schemaBody.data).foldl
    (fun ps (m : String × String × String) =>
      setEntry m.1 (yupInfoOf m.2.1 m.2.2) ps) []

/-- `TypeScriptInterfaceExtractor.can_extract`:
`'interface' in content and '\x7b' in content`. -/
def tsIfaceCanExtract (content : String) : Bool :=
  containsSub content "interface" && containsSub content ⟨[obr]⟩

/-- One anchored match of the TypeScript interface field pattern
`(\w+)\??:\s*([^;,\n]+)`; the boolean is whether the optional `?`
participated (`'?' in match.group(0).split(':')[0]`). -/
def tsIfaceFieldAt (cs : List Char) :
    Option (String × Bool × String × List Char) :=
  match takeWord cs with
  | some (name, r1) =>
    let (isOpt, r2) := match r1 with
      | q :: t => if q == '?' then (true, t) else (false, r1)
      | [] => (false, r1)
    match expectChar ':' r2 with
    | some r3 =>
      let r4 := skipWs r3
      let g := r4.takeWhile (fun c => !(c == ';' || c == ',' || c == '\n'))
      if g.isEmpty then none
      else some (⟨name⟩, isOpt, ⟨g⟩, r4.drop g.length)
    | none => none
  | none => none

def tsIfaceScan : Nat → List Char → List (String × Bool × String)
  | _, [] => []
  | 0, _ => []
  | fuel + 1, c :: rest =>
    match tsIfaceFieldAt (c :: rest) with
    | some (n, o, t, after) => (n, o, t) :: tsIfaceScan fuel after
    | none => tsIfaceScan fuel rest

/-- The TypeScript type map of `TypeScriptInterfaceExtractor`. -/
def tsTypeMap (t : String) : String :=
  if t = "string" then "str"
  else if t = "number" then "number"
  else if t = "boolean" then "bool"
  else if t = "object" then "object"
  else if t = "any" then "any"
  else if t = "Array" then "array"
  else t

/-- The per-field record of `TypeScriptInterfaceExtractor.extract_params`. -/
def tsIfaceInfoOf (isOpt : Bool) (rawType : String) : ParamInfo :=
  let t := pyStrip rawType
  let ptype :=
    if [sq].isPrefixOf t.data || [dqc].isPrefixOf t.data then "literal<" ++ t ++ ">"
    else if containsSub t "|" then "enum<" ++ t ++ ">"
    else if "[]".data.isSuffixOf t.data then
      "array<" ++ tsTypeMap (⟨t.data.take (t.data.length - 2)⟩ : String) ++ ">"
    else tsTypeMap t
  { type := ptype, required := !isOpt, description := none }

/-- Embeds `TypeScriptInterfaceExtractor.extract_params`. -/
def tsIfaceExtractParams (_content schemaBody : String) : List (String × ParamInfo) :=
  (tsIfaceScan schemaBody.data.length schemaBody.data).foldl
    (fun ps (m : String × Bool × String) =>
      setEntry m.1 (tsIfaceInfoOf m.2.1 m.2.2) ps) []

/-- A schema extractor: the strategy interface
(`can_extract` / `extract_params` / `get_library_name`); runtime-registered
extractors are arbitrary values of this type. -/
structure SchemaExtractor where
  canExtract : String → Bool
  extractParams : String → String → List (String × ParamInfo)
  libName : String

/-- The built-in `ZodSchemaExtractor` instance. -/
def zodExtractor : SchemaExtractor :=
  { canExtract := zodCanExtract, extractParams := zodExtractParams,
    libName := "Zod" }

/-- The built-in `YupSchemaExtractor` instance. -/
def yupExtractor : SchemaExtractor :=
  { canExtract := yupCanExtract, extractParams := yupExtractParams,
    libName := "Yup" }

/-- The built-in `TypeScriptInterfaceExtractor` instance. -/
def tsIfaceExtractor : SchemaExtractor :=
  { canExtract := tsIfaceCanExtract, extractParams := tsIfaceExtractParams,
    libName := "TypeScript" }

/-- Embeds `SchemaExtractorFactory` (its ordered extractor list). -/
structure SchemaExtractorFactory where
  extractors : List SchemaExtractor

/-- `SchemaExtractorFactory.__init__`. -/
def factoryInit : SchemaExtractorFactory :=
  { extractors := [zodExtractor, yupExtractor, tsIfaceExtractor] }

/-- `SchemaExtractorFactory.get_extractor`: the first extractor whose
`can_extract` accepts the whole file content. -/
def getExtractor (f : SchemaExtractorFactory) (content : String) :
    Option SchemaExtractor :=
  f.extractors.find? (fun e => e.canExtract content)

/-- `SchemaExtractorFactory.register_extractor`: insert at the front. -/
def registerExtractor (f : SchemaExtractorFactory) (e : SchemaExtractor) :
    SchemaExtractorFactory :=
  { extractors := e :: f.extractors }

/-- Embeds `LangChainTypeScriptDetector._extract_schema_params`: first
matching extractor, or the empty map when none accepts the content.  (The
source also maps an extractor exception to the empty map; extractors are
total here.) -/
def extractSchemaParams (f : SchemaExtractorFactory) (content schemaBody : String) :
    List (String × ParamInfo) :=
  match getExtractor f content with
  | some e => e.extractParams content schemaBody
  | none => []

/-! ### LangChain TypeScript detector (`agentbom.detectors.langchain_ts`)

TypeScript files have no parsed grammar in the source — everything is
regex-driven over the raw text.  The file system visible to cross-file
resolution of imports is an association list from resolved path segments to
file text. -/

namespace LCTs

/-- Leftmost search with an anchored option-valued matcher. -/
def searchOptWith {α : Type} (m : List Char → Option α) : List Char → Option α
  | [] => m []
  | c :: rest =>
    match m (c :: rest) with
    | some g => some g
    | none => searchOptWith m rest

/-- `(?:const|let|var)` at the head. -/
def tsKw (cs : List Char) : Option (List Char) :=
  match expectStr "const".data cs with
  | some r => some r
  | none =>
    match expectStr "let".data cs with
    | some r => some r
    | none => expectStr "var".data cs

/-- `(?:const|let|var)\s+<name>\s*=\s*` at the head, returning the
remainder after the `=` and its trailing whitespace. -/
def tsDeclPre (name : List Char) (cs : List Char) : Option (List Char) :=
  match tsKw cs with
  | some r =>
    match r with
    | x :: _ =>
      if pySpaceChar x then
        match expectStr name (skipWs r) with
        | some r2 =>
          match expectChar '=' (skipWs r2) with
          | some r3 => some (skipWs r3)
          | none => none
        | none => none
      else none
    | [] => none
  | none => none

/-- `(?:const|let|var)\s+<name>\s*=\s*tool\s*\(` at the head
(the `tool_pattern` of `_find_tool_definition`). -/
def tsToolDeclAt (name : List Char) (cs : List Char) : Bool :=
  match tsDeclPre name cs with
  | some r3 =>
    match expectStr "tool".data r3 with
    | some r4 => (expectChar '(' (skipWs r4)).isSome
    | none => false
  | none => false

/-- `searchPos` for a boolean anchored matcher. -/
def searchPosWith (m : List Char → Bool) : List Char → Nat → Option Nat
  | [], i => if m [] then some i else none
  | c :: rest, i =>
    if m (c :: rest) then some i else searchPosWith m rest (i + 1)

/-- `<key>\s*:\s*["\']([^"\']+)["\']` anchored at the head. -/
def keyQuotedAt (key : List Char) (cs : List Char) : Option (List Char) :=
  match expectStr key cs with
  | some r1 =>
    match expectChar ':' (skipWs r1) with
    | some r2 =>
      match skipWs r2 with
      | q :: r3 =>
        if isQuote q then
          let g := r3.takeWhile (fun c => !isQuote c)
          if g.isEmpty then none
          else
            match r3.drop g.length with
            | q2 :: _ => if isQuote q2 then some g else none
            | [] => none
        else none
      | [] => none
    | none => none
  | none => none

/-- `description\s*:\s*\x60([^\x60]+)\x60` (template string) anchored at
the head. -/
def descTemplateAt (cs : List Char) : Option (List Char) :=
  match expectStr "description".data cs with
  | some r1 =>
    match expectChar ':' (skipWs r1) with
    | some r2 =>
      match skipWs r2 with
      | q :: r3 =>
        if q == bq then
          let g := r3.takeWhile (· != bq)
          if g.isEmpty then none
          else
            match r3.drop g.length with
            | q2 :: _ => if q2 == bq then some g else none
            | [] => none
        else none
      | [] => none
    | none => none
  | none => none

/-- `schema\s*:\s*z\.object\s*\(\s*\x7b([^\x7d]+)\x7d` anchored at the
head; when `requireClose` is set the variant with trailing `\s*\)` is
matched (the two forms used in the source). -/
def schemaZodAt (requireClose : Bool) (cs : List Char) : Option (List Char) :=
  match expectStr "schema".data cs with
  | some r1 =>
    match expectChar ':' (skipWs r1) with
    | some r2 =>
      match expectStr "z.object".data (skipWs r2) with
      | some r3 =>
        match expectChar '(' (skipWs r3) with
        | some r4 =>
          match skipWs r4 with
          | b :: r5 =>
            if b == obr then
              let g := r5.takeWhile (· != cbr)
              if g.isEmpty then none
              else
                match r5.drop g.length with
                | b2 :: r6 =>
                  if b2 == cbr then
                    if requireClose then
                      if (expectChar ')' (skipWs r6)).isSome then some g else none
                    else some g
                  else none
                | [] => none
            else none
          | [] => none
        | none => none
      | none => none
    | none => none
  | none => none

/-- `(?:const|let|var)\s+<name>\s*=\s*new\s+DynamicStructuredTool\s*\(\s*\x7b([^\x7d]+)\x7d`
anchored at the head; returns the tool body group. -/
def tsDynToolAt (name : List Char) (cs : List Char) : Option (List Char) :=
  match tsDeclPre name cs with
  | some r3 =>
    match expectStr "new".data r3 with
    | some r4 =>
      match r4 with
      | y :: _ =>
        if pySpaceChar y then
          match expectStr "DynamicStructuredTool".data (skipWs r4) with
          | some r5 =>
            match expectChar '(' (skipWs r5) with
            | some r6 =>
              match skipWs r6 with
              | b :: r7 =>
                if b == obr then
                  let g := r7.takeWhile (· != cbr)
                  if g.isEmpty then none
                  else
                    match r7.drop g.length with
                    | b2 :: _ => if b2 == cbr then some g else none
                    | [] => none
                else none
              | [] => none
            | none => none
          | none => none
        else none
      | [] => none
    | none => none
  | none => none

/-- Embeds `LangChainTypeScriptDetector._find_tool_definition`
(the `tool(...)` branch works on the 2000-character chunk starting at
the declaration, as in the source). -/
def findToolDef (f : SchemaExtractorFactory) (name content : String) :
    Option ToolInfo :=
  match searchPosWith (tsToolDeclAt name.data) content.data 0 with
  | some pos =>
    let chunk := (content.data.drop pos).take 2000
    let name1 :=
      match searchOptWith (keyQuotedAt "name".data) chunk with
      | some g => (⟨g⟩ : String)
      | none => name
    let desc :=
      match searchOptWith (keyQuotedAt "description".data) chunk with
      | some g => some (⟨g⟩ : String)
      | none => none
    let params :=
      match searchOptWith (schemaZodAt true) chunk with
      | some body => extractSchemaParams f content ⟨body⟩
      | none => []
    some { name := name1, filePath := "", description := desc,
           parameters := params }
  | none =>
    match searchOptWith (tsDynToolAt name.data) content.data with
    | some toolBody =>
      let name1 :=
        match searchOptWith (keyQuotedAt "name".data) toolBody with
        | some g => (⟨g⟩ : String)
        | none => name
      let desc :=
        match searchOptWith (keyQuotedAt "description".data) toolBody with
        | some g => some (⟨g⟩ : String)
        | none => none
      let params :=
        match searchOptWith (schemaZodAt false) toolBody with
        | some body => extractSchemaParams f content ⟨body⟩
        | none => []
      some { name := name1, filePath := "", description := desc,
             parameters := params }
    | none => none

/-- `(?:const|let|var)\s+<var>\s*=\s*(create\w+Tool)\s*\(` anchored at the
head; returns the factory-name group.  (The greedy `\w+` with the `Tool`
literal matches exactly the callee words that start with `create`, end
with `Tool`, and have a non-empty middle.) -/
def tsFactoryCallAt (varName : List Char) (cs : List Char) : Option (List Char) :=
  match tsDeclPre varName cs with
  | some r3 =>
    match takeWord r3 with
    | some (w, r4) =>
      if "create".data.isPrefixOf w && "Tool".data.isSuffixOf w &&
          decide (10 < w.length) && (expectChar '(' (skipWs r4)).isSome then
        some w
      else none
    | none => none
  | none => none

/-- `import\s*\x7b[^\x7d]*<factory>[^\x7d]*\x7d\s*from\s*["\']([^"\']+)["\']`
anchored at the head; returns the import-path group. -/
def tsImportPathAt (factory : List Char) (cs : List Char) : Option (List Char) :=
  match expectStr "import".data cs with
  | some r1 =>
    match skipWs r1 with
    | b :: r2 =>
      if b == obr then
        let inner := r2.takeWhile (· != cbr)
        if containsSub ⟨inner⟩ ⟨factory⟩ then
          match r2.drop inner.length with
          | b2 :: r3 =>
            if b2 == cbr then
              match expectStr "from".data (skipWs r3) with
              | some r4 =>
                match skipWs r4 with
                | q :: r5 =>
                  if isQuote q then
                    let g := r5.takeWhile (fun c => !isQuote c)
                    if g.isEmpty then none
                    else
                      match r5.drop g.length with
                      | q2 :: _ => if isQuote q2 then some g else none
                      | [] => none
                  else none
                | [] => none
              | none => none
            else none
          | [] => none
        else none
      else none
    | [] => none
  | none => none

/-- The TypeScript-side file system: resolved path segments to file
text. -/
abbrev TsFs := List (List String × String)

/-- Split a path string at `/` into segments. -/
def segsOfPath (p : String) : List String :=
  (splitOnChar '/' p.data).map (fun l => (⟨l⟩ : String))

/-- `Path.resolve()` on a joined relative path: interpret `..` and `.`
segments against the base directory. -/
def resolveSegs (base : List String) (parts : List String) : List String :=
  parts.foldl
    (fun acc p =>
      if p = ".." then acc.dropLast
      else if p = "." || p = "" then acc
      else acc ++ [p]) base

/-- File-system lookup (`Path.exists` + read). -/
def tsFsLookup (fs : TsFs) (p : List String) : Option String :=
  (fs.find? (fun e => e.1 == p)).map (·.2)

/-- Append an extension to the last path segment. -/
def addExt (p : List String) (ext : String) : List String :=
  match p.reverse with
  | last :: rest => ((last ++ ext) :: rest).reverse
  | [] => p

/-- Embeds `_resolve_import_path`: relative imports only, trying the
extensions `.ts`, `.tsx`, `.js`, `.jsx`, then the bare path, then its
`index.ts`. -/
def tsResolveImportPath (fs : TsFs) (importPath : String)
    (currentFile : List String) : Option (List String) :=
  if "..".data.isPrefixOf importPath.data || ".".data.isPrefixOf importPath.data then
    let resolved := resolveSegs currentFile.dropLast (segsOfPath importPath)
    let tryExt := fun (ext : String) =>
      let cand := addExt resolved ext
      if (tsFsLookup fs cand).isSome then some cand else none
    match tryExt ".ts" with
    | some c => some c
    | none =>
      match tryExt ".tsx" with
      | some c => some c
      | none =>
        match tryExt ".js" with
        | some c => some c
        | none =>
          match tryExt ".jsx" with
          | some c => some c
          | none =>
            if (tsFsLookup fs resolved).isSome then some resolved
            else
              let idx := resolved ++ ["index.ts"]
              if (tsFsLookup fs idx).isSome then some idx else none
  else none

/-- Join path segments with `/` (the `str(path)` rendering used for
`ToolInfo.file_path`). -/
def joinSegs : List String → String
  | [] => ""
  | [s] => s
  | s :: rest => s ++ "/" ++ joinSegs rest

/-- `schema\s*:\s*(\w+)` anchored at the head (schema variable
reference). -/
def schemaRefAt (cs : List Char) : Option (List Char) :=
  match expectStr "schema".data cs with
  | some r1 =>
    match expectChar ':' (skipWs r1) with
    | some r2 =>
      match takeWord (skipWs r2) with
      | some (w, _) => some w
      | none => none
    | none => none
  | none => none

/-- `(?:const|let|var)\s+<var>\s*=\s*z\.object\s*\(\s*\x7b([^\x7d]+)\x7d\s*\)`
anchored at the head. -/
def tsSchemaVarDefAt (varName : List Char) (cs : List Char) : Option (List Char) :=
  match tsDeclPre varName cs with
  | some r3 =>
    match expectStr "z.object".data r3 with
    | some r4 =>
      match expectChar '(' (skipWs r4) with
      | some r5 =>
        match skipWs r5 with
        | b :: r6 =>
          if b == obr then
            let g := r6.takeWhile (· != cbr)
            if g.isEmpty then none
            else
              match r6.drop g.length with
              | b2 :: r7 =>
                if b2 == cbr then
                  if (expectChar ')' (skipWs r7)).isSome then some g else none
                else none
              | [] => none
          else none
        | [] => none
      | none => none
    | none => none
  | none => none

/-- Embeds `_parse_tool_from_file`. -/
def parseToolFromFile (f : SchemaExtractorFactory) (content : String)
    (filePath : String) : Option ToolInfo :=
  let nameOpt := searchOptWith (keyQuotedAt "name".data) content.data
  let desc :=
    match searchOptWith descTemplateAt content.data with
    | some g => some (pyStrip ⟨g⟩)
    | none =>
      match searchOptWith (keyQuotedAt "description".data) content.data with
      | some g => some (pyStrip ⟨g⟩)
      | none => none
  let params :=
    match searchOptWith (schemaZodAt true) content.data with
    | some body => extractSchemaParams f content ⟨body⟩
    | none =>
      match searchOptWith schemaRefAt content.data with
      | some varName =>
        match searchOptWith (tsSchemaVarDefAt varName) content.data with
        | some body => extractSchemaParams f content ⟨body⟩
        | none => []
      | none => []
  match nameOpt with
  | some n =>
    some { name := ⟨n⟩, filePath := filePath, description := desc,
           parameters := params }
  | none => none

/-- Embeds `_load_tool_from_import`: resolve the path against the file
system, read the file, and parse the tool from it (all failures recover to
`none`). -/
def loadToolFromImport (f : SchemaExtractorFactory) (fs : TsFs)
    (importPath : String) (currentFile : List String) : Option ToolInfo :=
  match tsResolveImportPath fs importPath currentFile with
  | some p =>
    match tsFsLookup fs p with
    | some text => parseToolFromFile f text (joinSegs p)
    | none => none
  | none => none

/-- Embeds `_find_tool_from_import`. -/
def findToolFromImport (f : SchemaExtractorFactory) (fs : TsFs)
    (toolVarName content : String) (currentFile : List String) :
    Option ToolInfo :=
  match searchOptWith (tsFactoryCallAt toolVarName.data) content.data with
  | some factoryName =>
    match searchOptWith (tsImportPathAt factoryName) content.data with
    | some path => loadToolFromImport f fs ⟨path⟩ currentFile
    | none => none
  | none => none

/-- Embeds `LangChainTypeScriptDetector._extract_tools`: split the tools
array on commas, keep non-empty stripped entries, and resolve each one,
falling back to a bare `ToolInfo` with just the referenced name. -/
def extractTools (f : SchemaExtractorFactory) (fs : TsFs)
    (toolsArray content : String) (currentFile : List String) : List ToolInfo :=
  let names := ((splitOnChar ',' toolsArray.data).map pyStripList).filter
    (fun l => !l.isEmpty)
  names.map (fun nm =>
    let name : String := ⟨nm⟩
    match findToolDef f name content with
    | some ti => ti
    | none =>
      match findToolFromImport f fs name content currentFile with
      | some ti => ti
      | none => { name := name, filePath := "" })

/-- SQL indicators of the TypeScript detector. -/
def sqlIndicators : List String :=
  ["SqlToolkit", "SqlDatabase", "QuerySqlTool", "InfoSqlDatabaseTool",
   "ListSqlDatabaseTool", "sql-toolkit"]

/-- Embeds `LangChainTypeScriptDetector._has_sql_tools`. -/
def hasSqlTools (tools : List ToolInfo) (content : String) : Bool :=
  sqlIndicators.any (fun ind =>
    containsSub content ind || containsSub (pyLower content) (pyLower ind)) ||
  tools.any (fun t =>
    containsSub (pyLower t.name) "sql" ||
    (match t.description with
     | some d => containsSub (pyLower d) "sql"
     | none => false))

/-- Retrieval indicators of the TypeScript detector. -/
def retrievalIndicators : List String :=
  ["VectorStoreRetriever", "vectorStore", "retriever", "RetrievalQA",
   "ConversationalRetrievalChain", "FAISS", "Chroma", "Pinecone",
   "Weaviate", "MemoryVectorStore"]

/-- Terms scanned in tool names/descriptions by `_has_retrieval_tools`. -/
def retrievalTerms : List String := ["retriev", "search", "vector", "embed"]

/-- Embeds `LangChainTypeScriptDetector._has_retrieval_tools`. -/
def hasRetrievalTools (tools : List ToolInfo) (content : String) : Bool :=
  retrievalIndicators.any (fun ind => containsSub content ind) ||
  tools.any (fun t =>
    retrievalTerms.any (fun term => containsSub (pyLower t.name) term) ||
    (match t.description with
     | some d => retrievalTerms.any (fun term => containsSub (pyLower d) term)
     | none => false))

/-- The secondary agent-type classification step of
`LangChainTypeScriptDetector.detect` (lines 80-84), applied to the
default `"LLM Agent"`. -/
def agentTypeStep (tools : List ToolInfo) (content : String) : String :=
  if hasSqlTools tools content then "SQL Agent"
  else if hasRetrievalTools tools content then "Retrieval Agent"
  else "LLM Agent"

end LCTs

/-! ### Detection results

One record embeds `DetectorResult` for all detectors; the `metadata` open
map is embedded by the fields the detectors actually populate (CrewAI's
`agents`/`tasks`, AutoGen's `agents`/`group_chat`; the LangChain detectors
leave it empty). -/

/-- CrewAI per-agent metadata (`_extract_agent_details` plus the
`variable` key). -/
structure CrewAgentMeta where
  varName : String
  role : Option String := none
  goal : Option String := none
  backstory : Option String := none
  tools : List ToolInfo := []
  allowDelegation : Option PyConst := none
  verbose : Option PyConst := none
  maxIter : Option PyConst := none
deriving Repr, DecidableEq

/-- CrewAI per-task metadata (`_extract_task_details` plus `variable`). -/
structure CrewTaskMeta where
  varName : String
  description : Option String := none
  assignedAgent : Option String := none
  expectedOutput : Option String := none
  tools : List ToolInfo := []
deriving Repr, DecidableEq

/-- AutoGen per-agent metadata (`_extract_agent_details` plus `variable`
and `type`). -/
structure AgAgentMeta where
  varName : String
  type : String
  name : Option String := none
  systemMessage : Option String := none
  maxConsecutiveAutoReply : Option PyConst := none
  hasCodeExecution : Bool := false
  hasFunctions : Bool := false
  hasLlmConfig : Bool := false
deriving Repr, DecidableEq

/-- Embeds `DetectorResult`. -/
structure DetectorResult where
  found : Bool := false
  agentName : Option String := none
  constructorFile : String := ""
  toolFiles : List String := []
  tools : List ToolInfo := []
  architecture : String := "Other"
  frameworks : List String := []
  language : String := ""
  agentType : String := "LLM Agent"
  metaCrewAgents : List CrewAgentMeta := []
  metaCrewTasks : List CrewTaskMeta := []
  metaAgAgents : List AgAgentMeta := []
  metaGroupChatLinked : Option Bool := none
deriving Repr, DecidableEq

/-! ### LangChain Python detector (`agentbom.detectors.langchain_py`) -/

namespace LCPy

/-- The Python-side file system seen by cross-file import resolution:
resolved path segments to parsed files. -/
abbrev Fs := List (List String × PyFile)

/-- File-system lookup (`Path.exists` + `read_text` + `ast.parse`). -/
def fsLookup (fs : Fs) (p : List String) : Option PyFile :=
  (fs.find? (fun e => e.1 == p)).map (·.2)

/-- `from\s+langchain\.agents\s+import\s+.*initialize_agent`. -/
def presenceInit : Rx :=
  .cat [.str "from", .ws1, .str "langchain.agents", .ws1, .str "import",
    .ws1, .star Rx.dot, .str "initialize_agent"]

/-- `from\s+langchain\.agents\s+import\s+.*AgentExecutor`. -/
def presenceExecutor : Rx :=
  .cat [.str "from", .ws1, .str "langchain.agents", .ws1, .str "import",
    .ws1, .star Rx.dot, .str "AgentExecutor"]

/-- `from\s+langchain\.agents\s+import\s+[^#\n]*\bAgentType\b` without its
trailing word boundary (checked via the search's follow condition).  The
leading boundary forces the character before `AgentType` to be non-word:
either the last `\s+` whitespace (empty class-star) or a final non-word
class character. -/
def presenceAgentTypeCore : Rx :=
  .cat [.str "from", .ws1, .str "langchain.agents", .ws1, .str "import",
    .ws1,
    .alt .eps
      (.cat [.star (.noneOf ['#', '\n']),
        .cls (fun c => !pyWordChar c && c != '#' && c != '\n')]),
    .str "AgentType"]

/-- Embeds `check_presence_signature` for the LangChain Python detector. -/
def checkPresence (content : String) : Bool :=
  presenceInit.search content || presenceExecutor.search content ||
    presenceAgentTypeCore.searchFollow content (fun c => !pyWordChar c)

/-- The three construction signatures
(`initialize_agent\s*\([^)]*tools\s*=`, `AgentExecutor\s*\([^)]*tools\s*=`,
`AgentExecutor\.from_agent_and_tools\s*\(`). -/
def checkConstruction (content : String) : Bool :=
  let p1 : Rx := .cat [.str "initialize_agent", .ws, .chr '(',
    .star (.noneOf [')']), .str "tools", .ws, .chr '=']
  let p2 : Rx := .cat [.str "AgentExecutor", .ws, .chr '(',
    .star (.noneOf [')']), .str "tools", .ws, .chr '=']
  let p3 : Rx := .cat [.str "AgentExecutor.from_agent_and_tools", .ws, .chr '(']
  p1.search content || p2.search content || p3.search content

/-- `@tool.*?\ndef\s+<name>\s*\([^)]*\)` (DOTALL). -/
def atToolRx (name : String) : Rx :=
  .cat [.str "@tool", .star Rx.dotAll, .chr '\n', .str "def", .ws1,
    .str name, .ws, .chr '(', .star (.noneOf [')']), .chr ')']

/-- `<name>\s*=\s*(?:Tool|StructuredTool)\s*\(`. -/
def toolCtorRx (name : String) : Rx :=
  .cat [.str name, .ws, .chr '=', .ws,
    .alt (.str "Tool") (.str "StructuredTool"), .ws, .chr '(']

/-- `<attr>\s*=\s*["\']([^"\']+)["\']` anchored at the head. -/
def attrValAt (attr : List Char) (cs : List Char) : Option (List Char) :=
  match expectStr attr cs with
  | some r1 =>
    match expectChar '=' (skipWs r1) with
    | some r2 =>
      match skipWs r2 with
      | q :: r3 =>
        if isQuote q then
          let g := r3.takeWhile (fun c => !isQuote c)
          if g.isEmpty then none
          else
            match r3.drop g.length with
            | q2 :: _ => if isQuote q2 then some g else none
            | [] => none
        else none
      | [] => none
    | none => none
  | none => none

/-- The greedy `[^)]*` before `<attr>=...`: the last position before the
first `)` at which the attribute pattern matches. -/
def lastAttrBeforeParen (attr : List Char) : List Char → Option (List Char) →
    Option (List Char)
  | [], best => best
  | c :: rest, best =>
    if c == ')' then best
    else
      lastAttrBeforeParen attr rest
        (match attrValAt attr (c :: rest) with
         | some g => some g
         | none => best)

/-- One anchored match of
`<var>\s*=\s*(?:Tool|StructuredTool)\s*\([^)]*<attr>\s*=\s*["\']([^"\']+)["\']`. -/
def toolCtorAttrAt (varName attr : List Char) (cs : List Char) :
    Option (List Char) :=
  match expectStr varName cs with
  | some r1 =>
    match expectChar '=' (skipWs r1) with
    | some r2 =>
      let r3 := skipWs r2
      let afterCtor :=
        match expectStr "StructuredTool".data r3 with
        | some r => some r
        | none => expectStr "Tool".data r3
      match afterCtor with
      | some r4 =>
        match expectChar '(' (skipWs r4) with
        | some r5 => lastAttrBeforeParen attr r5 none
        | none => none
      | none => none
    | none => none
  | none => none

/-- Leftmost search for the tool-constructor attribute pattern. -/
def toolCtorAttrSearch (varName attr : List Char) : List Char → Option (List Char)
  | [] => none
  | c :: rest =>
    match toolCtorAttrAt varName attr (c :: rest) with
    | some g => some g
    | none => toolCtorAttrSearch varName attr rest

/-- `def\s+<name>\s*\([^)]*\)\s*:\s*"""([^"]*?)"""` (DOTALL) anchored at
the head (the regex-fallback docstring extraction of
`_find_tool_definition`). -/
def defDocAt (name : List Char) (cs : List Char) : Option (List Char) :=
  match expectStr "def".data cs with
  | some r0 =>
    match r0 with
    | x :: _ =>
      if pySpaceChar x then
        match expectStr name (skipWs r0) with
        | some r1 =>
          match expectChar '(' (skipWs r1) with
          | some r2 =>
            let inner := r2.takeWhile (· != ')')
            match expectChar ')' (r2.drop inner.length) with
            | some r3 =>
              match expectChar ':' (skipWs r3) with
              | some r4 =>
                match expectStr [dqc, dqc, dqc] (skipWs r4) with
                | some r5 =>
                  let g := r5.takeWhile (· != dqc)
                  match expectStr [dqc, dqc, dqc] (r5.drop g.length) with
                  | some _ => some g
                  | none => none
                | none => none
              | none => none
            | none => none
          | none => none
        | none => none
      else none
    | [] => none
  | none => none

/-- Leftmost search for the fallback docstring pattern. -/
def defDocSearch (name : List Char) : List Char → Option (List Char)
  | [] => none
  | c :: rest =>
    match defDocAt name (c :: rest) with
    | some g => some g
    | none => defDocSearch name rest

/-- Is this expression `ast.Name` with the given id? -/
def isNameId (name : String) : PyExpr → Bool
  | .name i => i == name
  | _ => false

/-- First line of a docstring (`docstring.split("\n")[0]`). -/
def firstLine (s : String) : String :=
  ⟨(splitOnChar '\n' s.data).headD []⟩

/-- Embeds `_extract_pydantic_model_fields`: walk every class with the
requested name whose base mentions `Model`, and collect its annotated
fields with default/optionality analysis.  A failed re-parse of the same
content yields the empty map (the `except: pass`). -/
def extractPydanticModelFields (file : PyFile) (modelName : String) :
    List (String × ParamInfo) :=
  match file.tree with
  | none => []
  | some tree =>
    (walkStmts tree).foldl
      (fun acc s =>
        match s with
        | .classDef cname bases body =>
          if cname == modelName then
            let isPyd := bases.any (fun b =>
              match b with
              | .name i => containsSub i "Model"
              | .attribute _ a => containsSub a "Model"
              | _ => false)
            if isPyd then
              body.foldl
                (fun acc2 item =>
                  match item with
                  | .annAssign (.name fieldName) ann value =>
                    let ftype := astToTypeString ann
                    let (required0, dflt) :=
                      match value with
                      | some v =>
                        (match v with
                         | .call (.name fn2) _ kws2 =>
                           if fn2 == "Field" then
                             kws2.foldl
                               (fun (st : Bool × Option String) kw =>
                                 match kw.arg with
                                 | some "default" =>
                                   (false, some (astToValueString kw.value))
                                 | some "default_factory" => (false, some "factory")
                                 | _ => st) (true, none)
                           else (false, some (astToValueString v))
                         | _ => (false, some (astToValueString v)))
                      | none => (true, none)
                    let required :=
                      if containsSub ftype "Optional" || containsSub ftype "| None"
                      then false else required0
                    setEntry fieldName
                      { type := ftype, required := required,
                        description := none, default := dflt } acc2
                  | _ => acc2) acc
            else acc
          else acc
        | _ => acc) []

/-- Embeds `_extract_function_info`: signature of the first matching
function definition merged with its docstring. -/
def extractFunctionInfo (file : PyFile) (funcName : String) : Option FuncSig :=
  match file.tree with
  | none => none
  | some tree =>
    (walkStmts tree).findSome? (fun s =>
      match s with
      | .functionDef fname args _decs doc rets _body =>
        if fname == funcName then
          some (mergeDocstringInfo (extractFunctionSignature args rets) doc)
        else none
      | _ => none)

/-- Embeds `_extract_tool_from_class`: read the `name`/`description` class
attributes and the `args_schema` annotated attribute of a class extending
a `*Tool*` base; returns `none` when the class has no (string) name. -/
def extractToolFromClass (file : PyFile) (className : String)
    (filePathStr : String) : Option ToolInfo :=
  match file.tree with
  | none => none
  | some tree =>
    (walkStmts tree).findSome? (fun s =>
      match s with
      | .classDef cname bases body =>
        if cname == className then
          let isTool := bases.any (fun b =>
            match b with
            | .name i => containsSub i "Tool"
            | .attribute _ a => containsSub a "Tool"
            | _ => false)
          if isTool then
            let st := body.foldl
              (fun (st : String × Option String × Option String) item =>
                match item with
                | .assign targets value =>
                  targets.foldl
                    (fun st2 t =>
                      match t with
                      | .name "name" =>
                        (match extractStringValue value with
                         | some v => (v, st2.2.1, st2.2.2)
                         | none => st2)
                      | .name "description" =>
                        (match extractStringValue value with
                         | some v => (st2.1, some v, st2.2.2)
                         | none => st2)
                      | _ => st2) st
                | .annAssign (.name "args_schema") _ (some (.name schemaName)) =>
                  (st.1, st.2.1, some schemaName)
                | _ => st) ("", none, none)
            let params :=
              match st.2.2 with
              | some schemaName => extractPydanticModelFields file schemaName
              | none => []
            if st.1 ≠ "" then
              some { name := st.1, filePath := filePathStr,
                     description := st.2.1, parameters := params }
            else none
          else none
        else none
      | _ => none)

/-- `Path.with_suffix(".py")`: replace the final extension of the last
segment (or append when there is none). -/
def withSuffixPy (p : List String) : List String :=
  match p.reverse with
  | last :: rest =>
    let base : String :=
      if last.data.contains '.' then
        ⟨((last.data.reverse.dropWhile (· != '.')).drop 1).reverse⟩
      else last
    ((base ++ ".py") :: rest).reverse
  | [] => p

/-- Try the two candidates `target.with_suffix(".py")` and
`target/__init__.py`, in order. -/
def tryPyCandidates (fs : Fs) (target : List String) : Option (List String) :=
  let c1 := withSuffixPy target
  if (fsLookup fs c1).isSome then some c1
  else
    let c2 := target ++ ["__init__.py"]
    if (fsLookup fs c2).isSome then some c2 else none

/-- The bounded upward search of `_resolve_python_import` for absolute
module paths: up to 5 ancestor levels, stopping at the root. -/
def searchUp (fs : Fs) : Nat → List String → List String → Option (List String)
  | 0, _, _ => none
  | n + 1, searchDir, parts =>
    match tryPyCandidates fs (searchDir ++ parts) with
    | some c => some c
    | none =>
      let parent := searchDir.dropLast
      if parent.isEmpty then none else searchUp fs n parent parts

/-- Embeds `_resolve_python_import`.  (`ast.ImportFrom.module` never
carries leading dots — they live in the node's `level` — so the
relative branch is dead along the `_find_tool_class_from_import` call
path, but it is embedded faithfully.) -/
def resolvePythonImport (fs : Fs) (modulePath : String)
    (currentFile : List String) : Option (List String) :=
  let currentDir := currentFile.dropLast
  if modulePath.data.head? == some '.' then
    let level := (modulePath.data.takeWhile (· == '.')).length
    let mp := modulePath.data.drop level
    let targetDir := (List.range (level - 1)).foldl
      (fun d _ => d.dropLast) currentDir
    let target :=
      if mp.isEmpty then targetDir
      else targetDir ++ ((splitOnChar '.' mp).map (fun l => (⟨l⟩ : String)))
    tryPyCandidates fs target
  else
    let parts := (splitOnChar '.' modulePath.data).map (fun l => (⟨l⟩ : String))
    searchUp fs 5 currentDir parts

/-- Embeds `_find_tool_class_from_import`: follow the first `from … import
<className>` whose module resolves to an existing file and whose content
yields the class; failed resolutions or extractions continue the walk. -/
def findToolClassFromImport (fs : Fs) (file : PyFile)
    (currentFile : List String) (className : String) : Option ToolInfo :=
  match file.tree with
  | none => none
  | some tree =>
    (walkStmts tree).findSome? (fun s =>
      match s with
      | .importFrom (some module) names _level =>
        if names.contains className then
          match resolvePythonImport fs module currentFile with
          | some resolved =>
            match fsLookup fs resolved with
            | some extFile =>
              extractToolFromClass extFile className (LCTs.joinSegs resolved)
            | none => none
          | none => none
        else none
      | _ => none)

/-- Embeds `_extract_tool_from_call`.  Case 1 builds the record from the
keyword arguments of a `Tool`/`StructuredTool` call (later keywords
overwrite earlier state, as in the source loop); case 2 resolves a custom
class locally, then through imports, then falls back to a bare record
carrying the class name and the current file path. -/
def extractToolFromCall (fs : Fs) (currentFile : List String) (file : PyFile) :
    PyExpr → Option ToolInfo
  | .call (.name className) _args kws =>
    if className == "Tool" || className == "StructuredTool" then
      let st := kws.foldl
        (fun (st : String × Option String × List (String × ParamInfo) ×
            Option ReturnInfo) kw =>
          match kw.arg with
          | some "name" =>
            (match extractStringValue kw.value with
             | some n => (n, st.2.1, st.2.2.1, st.2.2.2)
             | none => st)
          | some "description" =>
            (match extractStringValue kw.value with
             | some d => (st.1, some d, st.2.2.1, st.2.2.2)
             | none => st)
          | some "args_schema" =>
            if className == "StructuredTool" then
              match kw.value with
              | .name modelName =>
                (st.1, st.2.1, extractPydanticModelFields file modelName, st.2.2.2)
              | _ => st
            else st
          | some "func" =>
            (match kw.value with
             | .lambdaE argNames =>
               (st.1, st.2.1,
                argNames.foldl
                  (fun ps a =>
                    setEntry a { type := "Any", required := true,
                                 description := none } ps) st.2.2.1,
                st.2.2.2)
             | .name funcName =>
               (match extractFunctionInfo file funcName with
                | some fi => (st.1, st.2.1, fi.parameters, some fi.returns)
                | none => st)
             | _ => st)
          | _ => st) ("unknown", none, [], none)
      some { name := st.1, filePath := "", description := st.2.1,
             parameters := st.2.2.1, returns := st.2.2.2 }
    else
      match extractToolFromClass file className (LCTs.joinSegs currentFile) with
      | some ti => some ti
      | none =>
        match findToolClassFromImport fs file currentFile className with
        | some ti => some ti
        | none =>
          some { name := className, filePath := LCTs.joinSegs currentFile }
  | _ => none

/-- Embeds `_find_tool_definition`: (1) an assignment of the name to a
call, resolved through `_extract_tool_from_call`; (2) a `@tool`-decorated
function (AST details when the content parses, regex-extracted docstring
otherwise); (3) a `Tool()`/`StructuredTool()` constructor assignment read
through regexes. -/
def findToolDefinition (fs : Fs) (currentFile : List String) (file : PyFile)
    (name : String) : Option ToolInfo :=
  let branch1 : Option ToolInfo :=
    match file.tree with
    | none => none
    | some tree =>
      (walkStmts tree).findSome? (fun s =>
        match s with
        | .assign targets value =>
          if targets.any (isNameId name) then
            match value with
            | .call f a k => extractToolFromCall fs currentFile file (.call f a k)
            | _ => none
          else none
        | _ => none)
  match branch1 with
  | some ti => some ti
  | none =>
    let branch2 : Option ToolInfo :=
      if (atToolRx name).search file.text then
        match file.tree with
        | some tree =>
          (walkStmts tree).findSome? (fun s =>
            match s with
            | .functionDef fname args decs doc rets _body =>
              if fname == name then
                let hasToolDec := decs.any (fun d =>
                  match d with
                  | .name i => i == "tool"
                  | .attribute _ a => a == "tool"
                  | _ => false)
                if hasToolDec then
                  let full := mergeDocstringInfo
                    (extractFunctionSignature args rets) doc
                  some { name := name, filePath := "",
                         description :=
                           (match full.description with
                            | some d => some d
                            | none =>
                              match doc with
                              | some ds => some (firstLine ds)
                              | none => none),
                         parameters := full.parameters,
                         returns := some full.returns }
                else none
              else none
            | _ => none)
        | none =>
          -- the re-parse raised: regex-based extraction of the docstring
          some { name := name, filePath := "",
                 description :=
                   match defDocSearch name.data file.text.data with
                   | some g => some (pyStrip ⟨g⟩)
                   | none => none }
      else none
    match branch2 with
    | some ti => some ti
    | none =>
      if (toolCtorRx name).search file.text then
        let toolName :=
          match toolCtorAttrSearch name.data "name".data file.text.data with
          | some g => (⟨g⟩ : String)
          | none => name
        let desc :=
          match toolCtorAttrSearch name.data "description".data file.text.data with
          | some g => some (⟨g⟩ : String)
          | none => none
        some { name := toolName, filePath := "", description := desc }
      else none

/-- Resolution of one element of a tools collection (the shared per-item
body of `_extract_tools_from_node`): a `Name` goes through
`_find_tool_definition`, a `Call` through `_extract_tool_from_call`; any
other shape contributes nothing. -/
def resolveToolItem (fs : Fs) (currentFile : List String) (file : PyFile)
    (item : PyExpr) : Option ToolInfo :=
  match item with
  | .name i => findToolDefinition fs currentFile file i
  | .call f a k => extractToolFromCall fs currentFile file (.call f a k)
  | _ => none

/-- Embeds `_extract_tools_from_node`: a variable reference is chased to
every list/tuple assignment of that variable; a literal list/tuple is
resolved element-wise.  An element whose resolution fails contributes
nothing (`if tool_info: tools.append(tool_info)`). -/
def extractToolsFromNode (fs : Fs) (currentFile : List String) (file : PyFile)
    (node : PyExpr) : List ToolInfo :=
  let resolveItems := fun (elts : List PyExpr) =>
    elts.foldl
      (fun acc item =>
        match resolveToolItem fs currentFile file item with
        | some ti => acc ++ [ti]
        | none => acc) []
  match node with
  | .name toolsVar =>
    (match file.tree with
     | none => []
     | some tree =>
       (walkStmts tree).foldl
         (fun acc s =>
           match s with
           | .assign targets value =>
             targets.foldl
               (fun acc2 t =>
                 if isNameId toolsVar t then
                   match value with
                   | .listE elts => acc2 ++ resolveItems elts
                   | .tupleE elts => acc2 ++ resolveItems elts
                   | _ => acc2
                 else acc2) acc
           | _ => acc) [])
  | .listE elts => resolveItems elts
  | .tupleE elts => resolveItems elts
  | _ => []

/-- SQL indicators of the Python detector. -/
def sqlIndicators : List String :=
  ["SQLDatabaseToolkit", "sql_toolkit", "QuerySQLDataBaseTool",
   "InfoSQLDatabaseTool", "ListSQLDatabaseTool"]

/-- Embeds `LangChainPythonDetector._has_sql_tools`. -/
def hasSqlTools (tools : List ToolInfo) (content : String) : Bool :=
  sqlIndicators.any (fun ind => containsSub content ind) ||
  tools.any (fun t =>
    containsSub (pyLower t.name) "sql" ||
    (match t.description with
     | some d => containsSub (pyLower d) "sql"
     | none => false))

/-- Retrieval indicators of the Python detector. -/
def retrievalIndicators : List String :=
  ["VectorStoreRetriever", "vectorstore", "retriever", "RetrievalQA",
   "ConversationalRetrievalChain", "FAISS", "Chroma", "Pinecone", "Weaviate"]

/-- Embeds `LangChainPythonDetector._has_retrieval_tools`. -/
def hasRetrievalTools (tools : List ToolInfo) (content : String) : Bool :=
  retrievalIndicators.any (fun ind => containsSub content ind) ||
  tools.any (fun t =>
    LCTs.retrievalTerms.any (fun term => containsSub (pyLower t.name) term) ||
    (match t.description with
     | some d => LCTs.retrievalTerms.any (fun term => containsSub (pyLower d) term)
     | none => false))

/-- The secondary agent-type classification step of
`LangChainPythonDetector.detect` (lines 67-71), applied to the default
`"LLM Agent"`. -/
def agentTypeStep (tools : List ToolInfo) (content : String) : String :=
  if hasSqlTools tools content then "SQL Agent"
  else if hasRetrievalTools tools content then "Retrieval Agent"
  else "LLM Agent"

/-- The provider patterns of `_detect_provider_frameworks`
(`from\s+<pkg>\s+import` each). -/
def providerNames : List String :=
  ["langchain_openai", "langchain_anthropic", "langchain_google_genai",
   "langchain_community", "langchain_experimental"]

/-- Embeds `_detect_provider_frameworks`. -/
def detectProviderFrameworks (content : String) : List String :=
  providerNames.filter (fun p =>
    (Rx.cat [.str "from", .ws1, .str p, .ws1, .str "import"]).search content)

/-- The `info` dict of `_extract_agent_info` (its `metadata` entry is
created empty and never written). -/
structure AgentInfo where
  name : Option String := none
  tools : List ToolInfo := []
  architecture : String := "Other"
deriving Repr, DecidableEq

/-- Embeds `_extract_agent_info`: recognise an agent-constructor call,
read its keyword arguments, and recover the bound variable name from the
first assignment whose value is this node (CPython compares node identity;
here structural equality, which coincides on the inputs considered) or is
a call to the same function name.  Returns `none` when no tools were
extracted. -/
def extractAgentInfo (fs : Fs) (currentFile : List String) (file : PyFile)
    (node : PyExpr) : Option AgentInfo :=
  match node with
  | .call fn _args kws =>
    let funcNameOpt : Option String :=
      match fn with
      | .name i => some i
      | .attribute _ a => some a
      | _ => none
    match funcNameOpt with
    | some funcName =>
      if funcName == "initialize_agent" || funcName == "AgentExecutor" ||
          funcName == "from_agent_and_tools" then
        let info := kws.foldl
          (fun (acc : AgentInfo) kw =>
            match kw.arg with
            | some "tools" =>
              { acc with
                  tools := extractToolsFromNode fs currentFile file kw.value }
            | some "agent" =>
              if funcName == "initialize_agent" then
                match kw.value with
                | .attribute _ attr =>
                  if attr == "ZERO_SHOT_REACT_DESCRIPTION" then
                    { acc with architecture := "ReAct" }
                  else acc
                | _ => acc
              else acc
            | some "agent_name" =>
              (match extractStringValue kw.value with
               | some n => { acc with name := some n }
               | none => acc)
            | _ => acc) ({} : AgentInfo)
        let info2 :=
          match file.tree with
          | none => info
          | some tree =>
            match (walkStmts tree).find? (fun s =>
              match s with
              | .assign _ value =>
                value == node ||
                  (match value with
                   | .call (.name f2) _ _ => f2 == funcName
                   | _ => false)
              | _ => false) with
            | some (.assign targets _) =>
              (match targets.findSome? (fun t =>
                 match t with
                 | .name i => some i
                 | _ => none) with
               | some n => { info with name := some n }
               | none => info)
            | _ => info
        if info2.tools.isEmpty then none else some info2
      else none
    | none => none
  | _ => none

/-- Embeds `LangChainPythonDetector.detect`: presence check, construction
check, parse (a `SyntaxError` yields `none`), then the first call node
with agent info fills the result; the result is returned found in either
case. -/
def detect (fs : Fs) (filePath : List String) (file : PyFile) :
    Option DetectorResult :=
  if !checkPresence file.text then none
  else if !checkConstruction file.text then none
  else
    match file.tree with
    | none => none
    | some tree =>
      let base : DetectorResult :=
        { found := true, constructorFile := LCTs.joinSegs filePath,
          language := "Python", frameworks := ["LangChain"] }
      match (walkModuleExprs tree).findSome? (fun e =>
        match e with
        | .call f a k => extractAgentInfo fs filePath file (.call f a k)
        | _ => none) with
      | some ai =>
        some { base with
          agentName := ai.name,
          tools := ai.tools,
          architecture := ai.architecture,
          agentType := agentTypeStep ai.tools file.text,
          frameworks := ["LangChain"] ++ detectProviderFrameworks file.text }
      | none => some base

end LCPy

/-! ### CrewAI detector (`agentbom.detectors.crewai`) -/

namespace Crew

/-- Embeds `CrewAIDetector._find_tool_definition` (the `@tool`-decorator
branch only — this detector has no constructor branch).  The pattern is
the same `@tool.*?\ndef\s+<name>\s*\([^)]*\)` as the LangChain Python
detector's. -/
def findToolDefinition (file : PyFile) (name : String) : Option ToolInfo :=
  if (LCPy.atToolRx name).search file.text then
    match file.tree with
    | some tree =>
      (walkStmts tree).findSome? (fun s =>
        match s with
        | .functionDef fname args decs doc rets _body =>
          if fname == name then
            let hasToolDec := decs.any (fun d =>
              match d with
              | .name i => i == "tool"
              | .attribute _ a => a == "tool"
              | _ => false)
            if hasToolDec then
              let full := mergeDocstringInfo
                (extractFunctionSignature args rets) doc
              some { name := name, filePath := "",
                     description :=
                       (match full.description with
                        | some d => some d
                        | none =>
                          match doc with
                          | some ds => some (LCPy.firstLine ds)
                          | none => none),
                     parameters := full.parameters,
                     returns := some full.returns }
            else none
          else none
        | _ => none)
    | none =>
      some { name := name, filePath := "",
             description :=
               match LCPy.defDocSearch name.data file.text.data with
               | some g => some (pyStrip ⟨g⟩)
               | none => none }
  else none

/-- Embeds `CrewAIDetector._extract_tools_from_node`: a `Name` element
falls back to a bare record when its definition is not found (or when the
content string is empty/falsy); a `Call` element contributes its callee
name only when the callee is a plain name. -/
def extractToolsFromNode (file : PyFile) (node : PyExpr) : List ToolInfo :=
  let perItems := fun (elts : List PyExpr) =>
    elts.foldl
      (fun acc item =>
        match item with
        | .name i =>
          let ti := if file.text ≠ "" then findToolDefinition file i else none
          (match ti with
           | some t => acc ++ [t]
           | none => acc ++ [{ name := i, filePath := "", description := none }])
        | .call (.name f) _ _ =>
          acc ++ [{ name := f, filePath := "", description := none }]
        | _ => acc) []
  match node with
  | .listE elts => perItems elts
  | .tupleE elts => perItems elts
  | _ => []

/-- Embeds `CrewAIDetector._extract_agent_details` (without the
`variable` key, supplied by the caller). -/
def agentDetails (file : PyFile) (kws : List PyKeyword) : CrewAgentMeta :=
  kws.foldl
    (fun (m : CrewAgentMeta) kw =>
      match kw.arg with
      | some "role" =>
        (match extractStringValue kw.value with
         | some v => { m with role := some v }
         | none => m)
      | some "goal" =>
        (match extractStringValue kw.value with
         | some v => { m with goal := some ⟨v.data.take 200⟩ }
         | none => m)
      | some "backstory" =>
        (match extractStringValue kw.value with
         | some v => { m with backstory := some ⟨v.data.take 200⟩ }
         | none => m)
      | some "tools" =>
        { m with tools := extractToolsFromNode file kw.value }
      | some "allow_delegation" =>
        (match kw.value with
         | .const c => { m with allowDelegation := some c }
         | _ => m)
      | some "verbose" =>
        (match kw.value with
         | .const c => { m with verbose := some c }
         | _ => m)
      | some "max_iter" =>
        (match kw.value with
         | .const c => { m with maxIter := some c }
         | _ => m)
      | _ => m) { varName := "" }

/-- Embeds `CrewAIDetector._extract_task_details`. -/
def taskDetails (file : PyFile) (kws : List PyKeyword) : CrewTaskMeta :=
  kws.foldl
    (fun (m : CrewTaskMeta) kw =>
      match kw.arg with
      | some "description" =>
        (match extractStringValue kw.value with
         | some v => { m with description := some ⟨v.data.take 200⟩ }
         | none => m)
      | some "agent" =>
        (match kw.value with
         | .name i => { m with assignedAgent := some i }
         | _ => m)
      | some "expected_output" =>
        (match extractStringValue kw.value with
         | some v => { m with expectedOutput := some ⟨v.data.take 200⟩ }
         | none => m)
      | some "tools" =>
        { m with tools := extractToolsFromNode file kw.value }
      | _ => m) { varName := "" }

/-- Accumulator of `_extract_crew_info`'s first pass. -/
structure CrewScan where
  agents : List (String × CrewAgentMeta) := []
  tasks : List (String × CrewTaskMeta) := []
  crewAgents : List String := []
  crewTasks : List String := []
  name : Option String := none

/-- One step of the first pass over the walked assignments. -/
def scanStep (file : PyFile) (st : CrewScan) : PyStmt → CrewScan
  | .assign targets (.call (.name fn) _ kws) =>
    if fn == "Agent" then
      targets.foldl
        (fun st2 t =>
          match t with
          | .name v =>
            { st2 with agents :=
                setAssoc v { agentDetails file kws with varName := v } st2.agents }
          | _ => st2) st
    else if fn == "Task" then
      targets.foldl
        (fun st2 t =>
          match t with
          | .name v =>
            { st2 with tasks :=
                setAssoc v { taskDetails file kws with varName := v } st2.tasks }
          | _ => st2) st
    else if fn == "Crew" then
      let st2 := targets.foldl
        (fun st2 t =>
          match t with
          | .name v => { st2 with name := some v }
          | _ => st2) st
      kws.foldl
        (fun st3 kw =>
          match kw.arg with
          | some "agents" =>
            (match kw.value with
             | .listE elts =>
               { st3 with crewAgents := st3.crewAgents ++
                   elts.filterMap (fun e =>
                     match e with | .name i => some i | _ => none) }
             | _ => st3)
          | some "tasks" =>
            (match kw.value with
             | .listE elts =>
               { st3 with crewTasks := st3.crewTasks ++
                   elts.filterMap (fun e =>
                     match e with | .name i => some i | _ => none) }
             | _ => st3)
          | _ => st3) st2
    else st
  | _ => st

/-- Embeds `CrewAIDetector._extract_crew_info`: `none` exactly when no
crew-bound agent variable has an `Agent(...)` definition. -/
def extractCrewInfo (file : PyFile) (tree : List PyStmt) :
    Option (Option String × List CrewAgentMeta × List CrewTaskMeta × List ToolInfo) :=
  let st := (walkStmts tree).foldl (scanStep file) {}
  let agentsL := st.crewAgents.filterMap (fun v => getAssoc v st.agents)
  let tools := agentsL.foldl (fun acc a => acc ++ a.tools) []
  let tasksL := st.crewTasks.filterMap (fun v => getAssoc v st.tasks)
  if agentsL.isEmpty then none else some (st.name, agentsL, tasksL, tools)

/-- One required-import pattern `from\s+crewai\s+import.*\b<kw>\b` of
`CrewAIDetector.detect` (word boundaries via a forced non-word separator
and the search's follow condition). -/
def requiredImport (kw : String) (content : String) : Bool :=
  (Rx.cat [.str "from", .ws1, .str "crewai", .ws1, .str "import",
    .star Rx.dot, .cls (fun c => !pyWordChar c && c != '\n'),
    .str kw]).searchFollow content (fun c => !pyWordChar c)

/-- The construction signature `Crew\s*\([^)]*agents\s*=\s*\[`. -/
def checkConstruction (content : String) : Bool :=
  (Rx.cat [.str "Crew", .ws, .chr '(', .star (.noneOf [')']),
    .str "agents", .ws, .chr '=', .ws, .chr '[']).search content

/-- Embeds `CrewAIDetector.detect`.  Note the result record is created
`found := true` before crew extraction and the source never resets the
flag, so the result is returned even when `_extract_crew_info` yields
nothing. -/
def detect (filePath : List String) (file : PyFile) : Option DetectorResult :=
  if !(requiredImport "Agent" file.text && requiredImport "Task" file.text &&
      requiredImport "Crew" file.text) then none
  else if !checkConstruction file.text then none
  else
    match file.tree with
    | none => none
    | some tree =>
      let base : DetectorResult :=
        { found := true, constructorFile := LCTs.joinSegs filePath,
          language := "Python", frameworks := ["CrewAI"],
          architecture := "MAS" }
      match extractCrewInfo file tree with
      | some (nm, agentsL, tasksL, tools) =>
        some { base with
          agentName := nm,
          metaCrewAgents := agentsL,
          metaCrewTasks := tasksL,
          tools := tools }
      | none => some base

end Crew

/-! ### AutoGen detector (`agentbom.detectors.autogen`) -/

namespace AutoG

/-- Embeds `AutoGenDetector._extract_agent_details` (without the
`variable`/`type` keys, supplied by the caller). -/
def agentDetails (kws : List PyKeyword) : AgAgentMeta :=
  kws.foldl
    (fun (m : AgAgentMeta) kw =>
      match kw.arg with
      | some "name" =>
        (match extractStringValue kw.value with
         | some v => { m with name := some v }
         | none => m)
      | some "system_message" =>
        (match extractStringValue kw.value with
         | some v => { m with systemMessage := some ⟨v.data.take 200⟩ }
         | none => m)
      | some "max_consecutive_auto_reply" =>
        (match kw.value with
         | .const c => { m with maxConsecutiveAutoReply := some c }
         | _ => m)
      | some "code_execution_config" => { m with hasCodeExecution := true }
      | some "function_map" => { m with hasFunctions := true }
      | some "llm_config" => { m with hasLlmConfig := true }
      | _ => m) { varName := "", type := "" }

/-- Accumulator of `_extract_agents_info`'s pass. -/
structure AgScan where
  agents : List (String × AgAgentMeta) := []
  groupChatAgents : List String := []
  groupChatVar : Option String := none
  name : Option String := none
  linked : Bool := false

/-- One step of the pass over the walked assignments. -/
def scanStep (st : AgScan) : PyStmt → AgScan
  | .assign targets (.call (.name fn) _ kws) =>
    if fn == "AssistantAgent" || fn == "UserProxyAgent" then
      targets.foldl
        (fun st2 t =>
          match t with
          | .name v =>
            let meta := { agentDetails kws with varName := v, type := fn }
            { st2 with agents := setAssoc v meta st2.agents }
          | _ => st2) st
    else if fn == "GroupChat" then
      let st2 := targets.foldl
        (fun st2 t =>
          match t with
          | .name v => { st2 with groupChatVar := some v }
          | _ => st2) st
      kws.foldl
        (fun st3 kw =>
          match kw.arg with
          | some "agents" =>
            (match kw.value with
             | .listE elts =>
               { st3 with groupChatAgents := st3.groupChatAgents ++
                   elts.filterMap (fun e =>
                     match e with | .name i => some i | _ => none) }
             | _ => st3)
          | _ => st3) st2
    else if fn == "GroupChatManager" then
      let st2 := targets.foldl
        (fun st2 t =>
          match t with
          | .name v => { st2 with name := some v }
          | _ => st2) st
      kws.foldl
        (fun st3 kw =>
          match kw.arg with
          | some "groupchat" =>
            (match kw.value with
             | .name g =>
               if st3.groupChatVar == some g then { st3 with linked := true }
               else st3
             | _ => st3)
          | _ => st3) st2
    else st
  | _ => st

/-- Embeds `AutoGenDetector._extract_agents_info`: `none` exactly when no
group-chat-bound agent variable has an agent definition. -/
def extractAgentsInfo (tree : List PyStmt) :
    Option (Option String × List AgAgentMeta × Bool) :=
  let st := (walkStmts tree).foldl scanStep {}
  let agentsL := st.groupChatAgents.filterMap (fun v => getAssoc v st.agents)
  if agentsL.isEmpty then none else some (st.name, agentsL, st.linked)

/-- The required imports of `AutoGenDetector.detect` (plain substring
membership). -/
def requiredImports (content : String) : Bool :=
  containsSub content "AssistantAgent" && containsSub content "UserProxyAgent" &&
    containsSub content "GroupChat" && containsSub content "GroupChatManager"

/-- The construction signature `GroupChatManager\s*\([^)]*groupchat\s*=`. -/
def checkConstruction (content : String) : Bool :=
  (Rx.cat [.str "GroupChatManager", .ws, .chr '(', .star (.noneOf [')']),
    .str "groupchat", .ws, .chr '=']).search content

/-- Embeds `AutoGenDetector.detect`.  As with CrewAI, the result record is
created `found := true` and the flag is never reset, so a coordinator with
zero bound sub-agents still returns a result. -/
def detect (filePath : List String) (file : PyFile) : Option DetectorResult :=
  if !requiredImports file.text then none
  else if !checkConstruction file.text then none
  else
    match file.tree with
    | none => none
    | some tree =>
      let base : DetectorResult :=
        { found := true, constructorFile := LCTs.joinSegs filePath,
          language := "Python", frameworks := ["AutoGen"],
          architecture := "MAS" }
      match extractAgentsInfo tree with
      | some (nm, agentsL, linked) =>
        some { base with
          agentName := nm,
          metaAgAgents := agentsL,
          metaGroupChatLinked := some linked }
      | none => some base

end AutoG

/-! ### Scanner conversion (`agentbom.scanner.Scanner._create_agent_from_result`) -/

namespace Scan

/-- Embeds `agentbom.models.ToolParameter`. -/
structure ToolParameter where
  type : String
  required : Bool := false
  description : Option String := none
deriving Repr, DecidableEq

/-- Embeds `agentbom.models.ToolReturns`. -/
structure ToolReturns where
  type : String
  description : Option String := none
deriving Repr, DecidableEq

/-- Embeds `agentbom.models.ToolDetail` (the fields populated by the
scanner). -/
structure ToolDetail where
  toolName : String
  description : String := "unknown"
  parameters : List (String × ToolParameter) := []
  returns : Option ToolReturns := none
deriving Repr, DecidableEq

/-- Embeds `agentbom.models.Tools`. -/
structure Tools where
  count : Nat := 0
  details : List ToolDetail := []
deriving Repr, DecidableEq

/-- The parameter-conversion loop of `_create_agent_from_result`
(scanner.py lines 344-356): parameters whose name starts with `*`
(the `*args`/`**kwargs` entries) are skipped; the rest carry their type,
required flag and description. -/
def convertParams (params : List (String × ParamInfo)) :
    List (String × ToolParameter) :=
  params.foldl
    (fun acc (p : String × ParamInfo) =>
      if p.1.data.head? == some '*' then acc
      else
        setAssoc p.1
          { type := p.2.type, required := p.2.required,
            description := p.2.description } acc) []

/-- The per-tool conversion of `_create_agent_from_result`
(`tool.description or "unknown"` uses Python truthiness). -/
def toolDetailOf (tool : ToolInfo) : ToolDetail :=
  { toolName := tool.name,
    description := (match tool.description with
      | some d => if d ≠ "" then d else "unknown"
      | none => "unknown"),
    parameters := convertParams tool.parameters,
    returns := tool.returns.map (fun r =>
      ({ type := r.type, description := r.description } : ToolReturns)) }

/-- The `Tools` record built by `_create_agent_from_result`. -/
def toolsOfResult (result : DetectorResult) : Tools :=
  { count := result.tools.length, details := result.tools.map toolDetailOf }

end Scan

/-! ## Association-list lemmas -/

lemma getAssoc_setAssoc_self {α : Type} (k : String) (v : α)
    (l : List (String × α)) : getAssoc k (setAssoc k v l) = some v := by
  induction l with
  | nil => simp [setAssoc, getAssoc]
  | cons e rest ih =>
    by_cases h : e.1 == k
    · simp [setAssoc, getAssoc, h]
    · simp [setAssoc, getAssoc, h, ih]

lemma mem_setAssoc {α : Type} (k : String) (v : α) (l : List (String × α))
    (q : String × α) (hq : q ∈ setAssoc k v l) : q ∈ l ∨ q = (k, v) := by
  induction l with
  | nil => simp [setAssoc] at hq; simp [hq]
  | cons e rest ih =>
    by_cases h : e.1 == k
    · rcases e with ⟨n, x⟩
      simp only [setAssoc, h, if_pos] at hq
      rcases List.mem_cons.mp hq with h1 | h1
      · right
        have : n = k := by simpa using h
        simp [h1, this]
      · left; exact List.mem_cons_of_mem _ h1
    · rcases e with ⟨n, x⟩
      simp only [setAssoc, h, if_neg, Bool.false_eq_true, not_false_iff] at hq
      rcases List.mem_cons.mp hq with h1 | h1
      · left; simp [h1]
      · rcases ih h1 with h2 | h2
        · left; exact List.mem_cons_of_mem _ h2
        · right; exact h2

lemma setAssoc_eq_append {α : Type} (k : String) (v : α)
    (l : List (String × α)) (h : k ∉ l.map Prod.fst) :
    setAssoc k v l = l ++ [(k, v)] := by
  induction l with
  | nil => simp [setAssoc]
  | cons e rest ih =>
    simp only [List.map_cons, List.mem_cons] at h
    push_neg at h
    have he : (e.1 == k) = false := by
      simp [BEq.beq]
      exact fun hcontra => h.1 hcontra.symm
    simp [setAssoc, he, ih h.2]

lemma foldl_setAssoc_append {α β : Type} (key : β → String) (val : β → α) :
    ∀ (l : List β) (acc : List (String × α)),
      (l.map key).Nodup →
      (∀ x ∈ l, key x ∉ acc.map Prod.fst) →
      l.foldl (fun ps x => setAssoc (key x) (val x) ps) acc =
        acc ++ l.map (fun x => (key x, val x)) := by
  intro l
  induction l with
  | nil => intro acc _ _; simp
  | cons x rest ih =>
    intro acc hnd hdisj
    simp only [List.map_cons, List.nodup_cons] at hnd
    simp only [List.foldl_cons]
    rw [setAssoc_eq_append (key x) (val x) acc (hdisj x (List.mem_cons_self x rest))]
    rw [ih (acc ++ [(key x, val x)]) hnd.2 ?_]
    · simp
    · intro y hy
      simp only [List.map_append, List.mem_append, List.map_cons,
        List.map_nil, List.mem_singleton]
      push_neg
      refine ⟨fun hc => hdisj y (List.mem_cons_of_mem _ hy) hc, ?_⟩
      intro hc
      exact hnd.1 (hc ▸ List.mem_map_of_mem key hy)

/-! ## Merge-loop lemmas (`BaseDetector.merge_docstring_info`) -/

lemma getEntry_updateEntry (k : String) (f : ParamInfo → ParamInfo)
    (n : String) (l : List (String × ParamInfo)) :
    getEntry n (updateEntry k f l) =
      if n = k then (getEntry n l).map f else getEntry n l := by
  induction l with
  | nil => simp [updateEntry, getEntry, getAssoc]
  | cons e rest ih =>
    rcases e with ⟨m, i⟩
    by_cases hmn : m = n
    · subst hmn
      by_cases hmk : m = k
      · subst hmk
        simp [updateEntry, getEntry, getAssoc]
      · simp [updateEntry, getEntry, getAssoc, hmk]
    · have h1 : (m == n) = false := by simpa using hmn
      by_cases hmk : m = k
      · subst hmk
        simp only [updateEntry, getEntry, getAssoc] at *
        simp [h1, ih]
      · have h2 : (m == k) = false := by simpa using hmk
        simp only [updateEntry, getEntry, getAssoc] at *
        simp [h1, h2, ih]

lemma getEntry_mergeParamDoc (params : List (String × ParamInfo))
    (pd : ParameterDoc) (n : String) :
    getEntry n (mergeParamDoc params pd) =
      if n = pd.name then (getEntry n params).map (mergeFn pd)
      else getEntry n params := by
  by_cases hs : (getEntry pd.name params).isSome
  · simp [mergeParamDoc, hs, getEntry_updateEntry]
  · have hnone : getEntry pd.name params = none :=
      Option.not_isSome_iff_eq_none.mp hs
    simp only [mergeParamDoc, hs, if_neg, Bool.false_eq_true, not_false_iff]
    by_cases hn : n = pd.name
    · rw [if_pos hn, hn, hnone]
      rfl
    · rw [if_neg hn]

lemma mergeFn_type (pd : ParameterDoc) (p : ParamInfo) (h : p.type ≠ "Any") :
    (mergeFn pd p).type = p.type := by
  unfold mergeFn
  by_cases hd : truthy pd.description
  all_goals cases pd.type with
  | none =>
    cases pd.default <;> simp [hd]
  | some t =>
    cases pd.default <;> simp [hd, h]

lemma mergeFn_default (pd : ParameterDoc) (p : ParamInfo) (d : String)
    (h : pd.default = some d) :
    (mergeFn pd p).default = some d ∧ (mergeFn pd p).required = false := by
  unfold mergeFn
  rw [h]
  exact ⟨rfl, rfl⟩

lemma foldl_mergeParamDoc_type (pds : List ParameterDoc) :
    ∀ (params : List (String × ParamInfo)) (n : String) (p : ParamInfo),
      getEntry n params = some p → p.type ≠ "Any" →
      ∃ q, getEntry n (pds.foldl mergeParamDoc params) = some q ∧
        q.type = p.type := by
  induction pds with
  | nil => intro params n p hp _; exact ⟨p, by simpa using hp, rfl⟩
  | cons pd rest ih =>
    intro params n p hp ht
    simp only [List.foldl_cons]
    by_cases hn : n = pd.name
    · have h1 : getEntry n (mergeParamDoc params pd) = some (mergeFn pd p) := by
        rw [getEntry_mergeParamDoc, if_pos hn, hp]; rfl
      obtain ⟨q, hq, hqt⟩ := ih (mergeParamDoc params pd) n (mergeFn pd p) h1
        (by rw [mergeFn_type pd p ht]; exact ht)
      exact ⟨q, hq, by rw [hqt, mergeFn_type pd p ht]⟩
    · have h1 : getEntry n (mergeParamDoc params pd) = some p := by
        rw [getEntry_mergeParamDoc, if_neg hn]; exact hp
      exact ih (mergeParamDoc params pd) n p h1 ht

/-! ## Tool-count lemmas for the three extraction loops -/

lemma lcpyResolveFold_length (fs : LCPy.Fs) (cur : List String) (file : PyFile)
    (elts : List PyExpr) :
    ∀ acc : List ToolInfo,
      (elts.foldl (fun acc item =>
        match LCPy.resolveToolItem fs cur file item with
        | some ti => acc ++ [ti]
        | none => acc) acc).length =
      acc.length +
        elts.countP (fun item => (LCPy.resolveToolItem fs cur file item).isSome) := by
  induction elts with
  | nil => intro acc; simp
  | cons e rest ih =>
    intro acc
    rcases h : LCPy.resolveToolItem fs cur file e with _ | ti
    all_goals simp only [List.foldl_cons, h, List.countP_cons]
    · rw [ih acc]
      simp [h]
    · rw [ih (acc ++ [ti])]
      simp [h]
      omega

/-- One CrewAI-syntactic tool reference inside a tools list: a plain name,
or a call whose callee is a plain name (the two shapes
`CrewAIDetector._extract_tools_from_node` emits a descriptor for). -/
def crewSyntacticRef : PyExpr → Bool
  | .name _ => true
  | .call (.name _) _ _ => true
  | _ => false

lemma crewPerItems_length (file : PyFile) (elts : List PyExpr) :
    ∀ acc : List ToolInfo,
      (elts.foldl (fun acc item =>
        match item with
        | .name i =>
          let ti := if file.text ≠ "" then Crew.findToolDefinition file i else none
          (match ti with
           | some t => acc ++ [t]
           | none => acc ++ [{ name := i, filePath := "", description := none }])
        | .call (.name f) _ _ =>
          acc ++ [{ name := f, filePath := "", description := none }]
        | _ => acc) acc).length =
      acc.length + elts.countP crewSyntacticRef := by
  induction elts with
  | nil => intro acc; simp
  | cons e rest ih =>
    intro acc
    simp only [List.foldl_cons, List.countP_cons]
    cases e
    case name i =>
      rcases h : (if file.text ≠ "" then Crew.findToolDefinition file i else none) with
        _ | t <;>
      simp only [h] <;> rw [ih] <;> simp [crewSyntacticRef] <;> omega
    case call fn a k =>
      cases fn <;> rw [ih] <;> simp [crewSyntacticRef] <;> omega
    all_goals rw [ih] <;> simp [crewSyntacticRef] <;> omega

/-! ## Scanner-conversion lemmas (`Scanner._create_agent_from_result`) -/

lemma convertFold_star (params : List (String × ParamInfo)) :
    ∀ acc : List (String × Scan.ToolParameter),
      (∀ r ∈ acc, ¬ r.1.data.head? = some '*') →
      ∀ q ∈ params.foldl
        (fun acc (p : String × ParamInfo) =>
          if p.1.data.head? == some '*' then acc
          else
            setAssoc p.1
              ({ type := p.2.type, required := p.2.required,
                 description := p.2.description } : Scan.ToolParameter) acc) acc,
        ¬ q.1.data.head? = some '*' := by
  induction params with
  | nil => intro acc hacc q hq; exact hacc q hq
  | cons p rest ih =>
    intro acc hacc q hq
    simp only [List.foldl_cons] at hq
    by_cases hp : p.1.data.head? == some '*'
    · rw [if_pos hp] at hq
      exact ih acc hacc q hq
    · rw [if_neg hp] at hq
      refine ih _ ?_ q hq
      intro r hr
      rcases mem_setAssoc _ _ _ _ hr with h1 | h1
      · exact hacc r h1
      · subst h1
        simpa using hp

lemma convertFold_filter (params : List (String × ParamInfo)) :
    ∀ acc : List (String × Scan.ToolParameter),
      params.foldl
        (fun acc (p : String × ParamInfo) =>
          if p.1.data.head? == some '*' then acc
          else
            setAssoc p.1
              ({ type := p.2.type, required := p.2.required,
                 description := p.2.description } : Scan.ToolParameter) acc) acc =
      (params.filter (fun p => !(p.1.data.head? == some '*'))).foldl
        (fun acc (p : String × ParamInfo) =>
          setAssoc p.1
            ({ type := p.2.type, required := p.2.required,
               description := p.2.description } : Scan.ToolParameter) acc) acc := by
  induction params with
  | nil => intro acc; simp
  | cons p rest ih =>
    intro acc
    rw [List.foldl_cons, List.filter_cons]
    by_cases hp : (p.1.data.head? == some '*') = true
    · rw [if_pos hp, ih]
      have h2 : (!(p.1.data.head? == some '*')) = false := by rw [hp]; rfl
      rw [h2]
      simp
    · have hx : (p.1.data.head? == some '*') = false := by
        revert hp; cases (p.1.data.head? == some '*') <;> simp
      rw [if_neg hp, ih]
      have h2 : (!(p.1.data.head? == some '*')) = true := by rw [hx]; rfl
      rw [h2]
      simp only [if_pos, List.foldl_cons]

/-! ## Concrete program inputs used by counterexamples and witnesses -/

set_option maxRecDepth 1000000

/-- A Python module whose tools list will hold two references: `a`,
defined locally under a `@tool` decorator, and `b`, imported from a
module that does not resolve anywhere. -/
def t1File : PyFile :=
  { text := "from helpers import b\n@tool\ndef a(x: str) -> str:\n    return x\n",
    tree := some [
      .importFrom (some "helpers") ["b"] 0,
      .functionDef "a" { args := [{ arg := "x", ann := some (.name "str") }] }
        [.name "tool"] none (some (.name "str")) [.passStmt]] }

/-- Parsed body of a CrewAI file constructing a `Crew` over one bound
agent variable that has no `Agent(...)` definition anywhere. -/
def t2tree : List PyStmt :=
  [.importFrom (some "crewai") ["Agent", "Task", "Crew"] 0,
   .assign [.name "crew"]
     (.call (.name "Crew") []
       [.mk (some "agents") (.listE [.name "researcher"]),
        .mk (some "tasks") (.listE [])])]

/-- A CrewAI file that passes the import and construction checks while
`_extract_crew_info` finds zero bound sub-agents (the variable
`researcher` is never defined). -/
def t2File : PyFile :=
  { text := "from crewai import Agent, Task, Crew\ncrew = Crew(agents=[researcher], tasks=[])\n",
    tree := some t2tree }

/-- Parsed body of an AutoGen file constructing a `GroupChatManager` with
no `GroupChat` and no agent definitions. -/
def t2agTree : List PyStmt :=
  [.importFrom (some "autogen")
     ["AssistantAgent", "UserProxyAgent", "GroupChat", "GroupChatManager"] 0,
   .assign [.name "manager"]
     (.call (.name "GroupChatManager") []
       [.mk (some "groupchat") (.name "chat")])]

/-- An AutoGen file that passes the import and construction checks while
`_extract_agents_info` finds zero bound sub-agents. -/
def t2agFile : PyFile :=
  { text := "from autogen import AssistantAgent, UserProxyAgent, GroupChat, GroupChatManager\nmanager = GroupChatManager(groupchat=chat)\n",
    tree := some t2agTree }

/-- External module `app/tools.py` defining a `BaseTool` subclass. -/
def t5ToolsFile : PyFile :=
  { text := "from langchain.tools import BaseTool\n\nclass FetchTool(BaseTool):\n    name = \"fetch_tool\"\n    description = \"Fetches.\"\n",
    tree := some [
      .importFrom (some "langchain.tools") ["BaseTool"] 0,
      .classDef "FetchTool" [.name "BaseTool"]
        [.assign [.name "name"] (.const (.str "fetch_tool")),
         .assign [.name "description"] (.const (.str "Fetches."))]] }

/-- Agent file `app/agents.py` importing `FetchTool` from the sibling
module `tools`. -/
def t5File : PyFile :=
  { text := "from langchain.agents import initialize_agent\nfrom tools import FetchTool\n\nagent = initialize_agent(tools=[FetchTool()])\n",
    tree := some [
      .importFrom (some "langchain.agents") ["initialize_agent"] 0,
      .importFrom (some "tools") ["FetchTool"] 0,
      .assign [.name "agent"]
        (.call (.name "initialize_agent") []
          [.mk (some "tools") (.listE [.call (.name "FetchTool") [] []])])] }

/-- A file system on which `app/tools.py` exists. -/
def t5fs : LCPy.Fs := [(["app", "tools.py"], t5ToolsFile)]

/-- Text that passes the presence and construction checks of the
LangChain Python detector but is not syntactically valid Python
(`ast.parse` raises `SyntaxError` at `def broken(:`), so its parsed tree
is `none`. -/
def t9pyFile : PyFile :=
  { text := "from langchain.agents import initialize_agent\ninitialize_agent(tools=[])\ndef broken(:\n",
    tree := none }

/-- Text that passes the import and construction checks of the CrewAI
detector but fails to parse. -/
def t9crewFile : PyFile :=
  { text := "from crewai import Agent, Task, Crew\nCrew(agents=[x])\ndef broken(:\n",
    tree := none }

/-- Text that passes the import and construction checks of the AutoGen
detector but fails to parse. -/
def t9agFile : PyFile :=
  { text := "from autogen import AssistantAgent, UserProxyAgent, GroupChat, GroupChatManager\nGroupChatManager(groupchat=c)\ndef broken(:\n",
    tree := none }

/-! ## The claims -/

set_option maxHeartbeats 4000000

/-- C4.  In both LangChain detectors the secondary agent-type
classification checks SQL indicators first: whenever the SQL check fires —
in particular also when the retrieval check fires on the same input — the
resulting agent type is `"SQL Agent"` and never `"Retrieval Agent"`, and
when neither check fires the default `"LLM Agent"` is kept. -/
theorem C4_sql_beats_retrieval (tools : List ToolInfo) (content : String) :
    (LCPy.hasSqlTools tools content = true →
      LCPy.agentTypeStep tools content = "SQL Agent") ∧
    (LCTs.hasSqlTools tools content = true →
      LCTs.agentTypeStep tools content = "SQL Agent") ∧
    (LCPy.hasSqlTools tools content = false →
      LCPy.hasRetrievalTools tools content = false →
      LCPy.agentTypeStep tools content = "LLM Agent") ∧
    (LCTs.hasSqlTools tools content = false →
      LCTs.hasRetrievalTools tools content = false →
      LCTs.agentTypeStep tools content = "LLM Agent") := by
  refine ⟨fun h => ?_, fun h => ?_, fun h1 h2 => ?_, fun h1 h2 => ?_⟩
  · simp [LCPy.agentTypeStep, h]
  · simp [LCTs.agentTypeStep, h]
  · simp [LCPy.agentTypeStep, h1, h2]
  · simp [LCTs.agentTypeStep, h1, h2]

/-- Witness for C4 on content carrying both a SQL indicator and a
retrieval indicator for each detector, and on content carrying neither. -/
theorem C4_sql_beats_retrieval_witness :
    LCPy.hasSqlTools [] "SQLDatabaseToolkit SqlToolkit vectorstore retriever" = true ∧
    LCPy.hasRetrievalTools [] "SQLDatabaseToolkit SqlToolkit vectorstore retriever" = true ∧
    LCTs.hasSqlTools [] "SQLDatabaseToolkit SqlToolkit vectorstore retriever" = true ∧
    LCTs.hasRetrievalTools [] "SQLDatabaseToolkit SqlToolkit vectorstore retriever" = true ∧
    LCPy.agentTypeStep [] "SQLDatabaseToolkit SqlToolkit vectorstore retriever" = "SQL Agent" ∧
    LCTs.agentTypeStep [] "SQLDatabaseToolkit SqlToolkit vectorstore retriever" = "SQL Agent" ∧
    LCPy.agentTypeStep [] "plain text" = "LLM Agent" ∧
    LCTs.agentTypeStep [] "plain text" = "LLM Agent" :=
  ⟨by decide, by decide, by decide, by decide,
   (C4_sql_beats_retrieval [] "SQLDatabaseToolkit SqlToolkit vectorstore retriever").1
     (by decide),
   (C4_sql_beats_retrieval [] "SQLDatabaseToolkit SqlToolkit vectorstore retriever").2.1
     (by decide),
   (C4_sql_beats_retrieval [] "plain text").2.2.1 (by decide) (by decide),
   (C4_sql_beats_retrieval [] "plain text").2.2.2 (by decide) (by decide)⟩

/-- C6.  The schema extractor registry returns the first extractor in its
ordered list whose `canExtract` accepts the whole file content; an
extractor registered at runtime is inserted at the front and so wins
whenever it accepts the content; and when no extractor accepts, the
registry yields no extractor and parameter extraction returns the empty
map rather than failing. -/
theorem C6_registry_first_match (pre post : List SchemaExtractor)
    (e : SchemaExtractor) (f : SchemaExtractorFactory)
    (content schemaBody : String) :
    (e.canExtract content = true →
      getExtractor (registerExtractor f e) content = some e) ∧
    ((∀ x ∈ pre, x.canExtract content = false) → e.canExtract content = true →
      getExtractor ⟨pre ++ e :: post⟩ content = some e) ∧
    ((∀ x ∈ f.extractors, x.canExtract content = false) →
      getExtractor f content = none ∧
      extractSchemaParams f content schemaBody = []) := by
  refine ⟨fun he => ?_, fun hpre he => ?_, fun hall => ?_⟩
  · exact List.find?_cons_of_pos _ he
  · induction pre with
    | nil => exact List.find?_cons_of_pos _ he
    | cons x xs ih =>
      have hx := hpre x (List.mem_cons_self x xs)
      simp only [getExtractor, List.cons_append] at *
      rw [List.find?_cons_of_neg _ (by simp [hx])]
      exact ih (fun y hy => hpre y (List.mem_cons_of_mem _ hy))
  · have hnone : getExtractor f content = none := by
      apply List.find?_eq_none.mpr
      intro x hx
      simp [hall x hx]
    refine ⟨hnone, ?_⟩
    simp [extractSchemaParams, hnone]

/-- Witness for C6: a runtime-registered extractor that accepts everything
wins over the built-ins; the Zod built-in is found first past a rejecting
front extractor; unmatchable content yields the empty map. -/
theorem C6_registry_first_match_witness :
    getExtractor
      (registerExtractor factoryInit
        { canExtract := fun _ => true, extractParams := fun _ _ => [],
          libName := "X" }) "anything" =
      some { canExtract := fun _ => true, extractParams := fun _ _ => [],
             libName := "X" } ∧
    getExtractor ⟨[yupExtractor] ++ zodExtractor :: []⟩ "z.object(" =
      some zodExtractor ∧
    getExtractor factoryInit "plain text" = none ∧
    extractSchemaParams factoryInit "plain text" "a: z.string()" = [] :=
  ⟨(C6_registry_first_match [] [] _ factoryInit "anything" "").1 rfl,
   (C6_registry_first_match [yupExtractor] [] zodExtractor factoryInit
      "z.object(" "").2.1
     (by intro x hx; simp only [List.mem_singleton] at hx; subst hx; decide)
     (by decide),
   ((C6_registry_first_match [] [] zodExtractor factoryInit
      "plain text" "a: z.string()").2.2
     (by
       intro x hx
       simp only [factoryInit, List.mem_cons, List.mem_singleton,
         List.not_mem_nil, or_false] at hx
       rcases hx with rfl | rfl | rfl <;> decide)).1,
   ((C6_registry_first_match [] [] zodExtractor factoryInit
      "plain text" "a: z.string()").2.2
     (by
       intro x hx
       simp only [factoryInit, List.mem_cons, List.mem_singleton,
         List.not_mem_nil, or_false] at hx
       rcases hx with rfl | rfl | rfl <;> decide)).2⟩

/-- C9.  A file whose raw text passes a detector's presence and
construction checks but does not parse (the `ast.parse` oracle is `none`)
makes that detector return `none` — for the LangChain Python, CrewAI and
AutoGen detectors alike. -/
theorem C9_syntax_error_yields_none (fs : LCPy.Fs) (p : List String)
    (file : PyFile) (htree : file.tree = none) :
    (LCPy.checkPresence file.text = true →
     LCPy.checkConstruction file.text = true →
     LCPy.detect fs p file = none) ∧
    (Crew.requiredImport "Agent" file.text = true →
     Crew.requiredImport "Task" file.text = true →
     Crew.requiredImport "Crew" file.text = true →
     Crew.checkConstruction file.text = true →
     Crew.detect p file = none) ∧
    (AutoG.requiredImports file.text = true →
     AutoG.checkConstruction file.text = true →
     AutoG.detect p file = none) := by
  refine ⟨fun h1 h2 => ?_, fun h1 h2 h3 h4 => ?_, fun h1 h2 => ?_⟩
  · simp [LCPy.detect, h1, h2, htree]
  · simp [Crew.detect, h1, h2, h3, h4, htree]
  · simp [AutoG.detect, h1, h2, htree]

/-- Witness for C9 at three concrete files whose texts pass the
respective detector checks and fail to parse. -/
theorem C9_syntax_error_yields_none_witness :
    LCPy.detect [] ["broken.py"] t9pyFile = none ∧
    Crew.detect ["broken.py"] t9crewFile = none ∧
    AutoG.detect ["broken.py"] t9agFile = none :=
  ⟨(C9_syntax_error_yields_none [] ["broken.py"] t9pyFile rfl).1
     (by decide) (by decide),
   (C9_syntax_error_yields_none [] ["broken.py"] t9crewFile rfl).2.1
     (by decide) (by decide) (by decide) (by decide),
   (C9_syntax_error_yields_none [] ["broken.py"] t9agFile rfl).2.2
     (by decide) (by decide)⟩

/-- C2 counterexample.  `t2File` constructs a `Crew` whose single bound
agent variable has no `Agent(...)` definition, so `_extract_crew_info`
yields nothing — yet `detect` returns a result (the record is created with
`found=True` before extraction and the flag is never reset), with
architecture `"MAS"`, not `null` as the claim demands. -/
theorem C2_counterexample :
    Crew.extractCrewInfo t2File t2tree = none ∧
    Crew.detect ["crew.py"] t2File =
      some { found := true, constructorFile := "crew.py",
             language := "Python", frameworks := ["CrewAI"],
             architecture := "MAS" } := by
  exact ⟨by decide, by decide⟩

/-- C2, amended.  When a CrewAI or AutoGen coordinator construction is
matched (imports, construction signature and parse all succeed) but the
per-file extraction binds zero sub-agents, `detect` does not return
`null`: it returns a found result with architecture `"MAS"` and no agent
metadata. -/
theorem C2_zero_subagents_still_found (p : List String) (file : PyFile)
    (tree : List PyStmt) (htree : file.tree = some tree) :
    (Crew.requiredImport "Agent" file.text = true →
     Crew.requiredImport "Task" file.text = true →
     Crew.requiredImport "Crew" file.text = true →
     Crew.checkConstruction file.text = true →
     Crew.extractCrewInfo file tree = none →
     Crew.detect p file =
       some { found := true, constructorFile := LCTs.joinSegs p,
              language := "Python", frameworks := ["CrewAI"],
              architecture := "MAS" }) ∧
    (AutoG.requiredImports file.text = true →
     AutoG.checkConstruction file.text = true →
     AutoG.extractAgentsInfo tree = none →
     AutoG.detect p file =
       some { found := true, constructorFile := LCTs.joinSegs p,
              language := "Python", frameworks := ["AutoGen"],
              architecture := "MAS" }) := by
  refine ⟨fun h1 h2 h3 h4 h5 => ?_, fun h1 h2 h3 => ?_⟩
  · simp [Crew.detect, h1, h2, h3, h4, h5, htree]
  · simp [AutoG.detect, h1, h2, h3, htree]

/-- Witness for the amended C2 at `t2File` (CrewAI) and `t2agFile`
(AutoGen). -/
theorem C2_zero_subagents_still_found_witness :
    Crew.detect ["crew.py"] t2File =
      some { found := true, constructorFile := "crew.py",
             language := "Python", frameworks := ["CrewAI"],
             architecture := "MAS" } ∧
    AutoG.detect ["chat.py"] t2agFile =
      some { found := true, constructorFile := "chat.py",
             language := "Python", frameworks := ["AutoGen"],
             architecture := "MAS" } :=
  ⟨(C2_zero_subagents_still_found ["crew.py"] t2File t2tree rfl).1
     (by decide) (by decide) (by decide) (by decide) (by decide),
   (C2_zero_subagents_still_found ["chat.py"] t2agFile t2agTree rfl).2
     (by decide) (by decide) (by decide)⟩

/-- C5 counterexample.  With the same file path and the same file content,
`_find_tool_class_from_import` answers differently on two states of the
surrounding file system (the import target `app/tools.py` absent versus
present), so detection is not a pure function of the content argument. -/
theorem C5_counterexample :
    LCPy.findToolClassFromImport [] t5File ["app", "agents.py"] "FetchTool" =
      none ∧
    LCPy.findToolClassFromImport t5fs t5File ["app", "agents.py"] "FetchTool" =
      some { name := "fetch_tool", filePath := "app/tools.py",
             description := some "Fetches." } ∧
    LCPy.findToolClassFromImport t5fs t5File ["app", "agents.py"] "FetchTool" ≠
      LCPy.findToolClassFromImport [] t5File ["app", "agents.py"] "FetchTool" := by
  exact ⟨by decide, by decide, by decide⟩

/-- C5, amended.  Detection reads the file system when chasing imports, so
it is a pure function of content and file system, not of content alone; the
file-system dependence is confined to import resolution: when no
`from … import` statement of the file mentions the class, the lookup
returns `none` identically on every file system. -/
theorem C5_fs_influence_only_via_imports (file : PyFile) (cur : List String)
    (className : String) (tree : List PyStmt) (htree : file.tree = some tree)
    (hno : ∀ s ∈ walkStmts tree,
      (match s with
       | .importFrom (some _) names _ => names.contains className
       | _ => false) = false) :
    ∀ fs : LCPy.Fs,
      LCPy.findToolClassFromImport fs file cur className = none := by
  intro fs
  unfold LCPy.findToolClassFromImport
  rw [htree]
  apply List.findSome?_eq_none.mpr
  intro s hs
  have := hno s hs
  rcases s with _ | _ | _ | _ | ⟨m, names, level⟩ | _ | _
  all_goals simp at this ⊢
  rcases m with _ | m
  · simp
  · simp at this
    simp [this]

/-- Witness for the amended C5: `t5File` never imports `OtherTool`, so the
lookup fails on the populated file system too. -/
theorem C5_fs_influence_only_via_imports_witness :
    LCPy.findToolClassFromImport t5fs t5File ["app", "agents.py"] "OtherTool" =
      none :=
  C5_fs_influence_only_via_imports t5File ["app", "agents.py"] "OtherTool" _
    rfl (by decide) t5fs

/-- C1 counterexample.  `t1File` holds two syntactic tool references,
`a` and `b`; `b` resolves by no rule, and the LangChain Python extraction
returns a single descriptor — the unresolvable reference is dropped
outright instead of degrading to a bare named descriptor, so the tool
count (1) does not match the reference count (2). -/
theorem C1_counterexample :
    LCPy.extractToolsFromNode [] ["agents.py"] t1File
      (.listE [.name "a", .name "b"]) =
    [{ name := "a", filePath := "",
       description := none,
       parameters := [("x", { type := "str", required := true,
                              description := none })],
       returns := some { type := "str", description := none } }] := by
  decide

/-- C1, amended.  The tool count equals the syntactic reference count for
the CrewAI detector (a name falls back to a bare descriptor, a
name-called construction contributes its callee) and for the LangChain
TypeScript detector (every non-empty comma-separated entry yields a
descriptor, resolved or not); the LangChain Python detector instead keeps
only the references `_find_tool_definition`/`_extract_tool_from_call`
resolves and silently drops the rest. -/
theorem C1_tool_counts (fs : LCPy.Fs) (tsfs : LCTs.TsFs) (cur : List String)
    (file : PyFile) (elts : List PyExpr) (f : SchemaExtractorFactory)
    (toolsArray content : String) :
    (LCPy.extractToolsFromNode fs cur file (.listE elts)).length =
      elts.countP
        (fun item => (LCPy.resolveToolItem fs cur file item).isSome) ∧
    (Crew.extractToolsFromNode file (.listE elts)).length =
      elts.countP crewSyntacticRef ∧
    (LCTs.extractTools f tsfs toolsArray content cur).length =
      (((splitOnChar ',' toolsArray.data).map pyStripList).filter
        (fun l => !l.isEmpty)).length := by
  refine ⟨?_, ?_, ?_⟩
  · simp only [LCPy.extractToolsFromNode]
    simpa using lcpyResolveFold_length fs cur file elts []
  · simp only [Crew.extractToolsFromNode]
    simpa using crewPerItems_length file elts []
  · simp only [LCTs.extractTools]
    exact List.length_map _ _

/-- The docstring of the C3 counterexample. -/
def c3doc : String :=
  "Args:\n    x (str): Blah. Defaults to 10.\n    y: Flag. Defaults to 1."

/-- A structural signature whose parameter `x` already carries a concrete
type, a concrete default and a required flag, and whose parameter `y` is
required. -/
def c3sig : FuncSig :=
  { parameters :=
      [("x", { type := "int", required := false, description := none,
               default := some "5" }),
       ("y", { type := "str", required := true })],
    returns := { type := "Any" } }

/-- C3 counterexample.  Merging `c3doc` into `c3sig` keeps `x`'s concrete
type `"int"`, but overwrites `x`'s concrete default `"5"` with the
docstring's `"10"` and flips `y`'s `required` from `true` to `false` —
`default` and `required` are overwritten whenever the docstring carries a
default, not solely when the signature left them at the unknown
sentinel. -/
theorem C3_counterexample :
    getEntry "x" (mergeDocstringInfo c3sig (some c3doc)).parameters =
      some { type := "int", required := false,
             description := some "Blah. Defaults to 10.",
             default := some "10" } ∧
    getEntry "y" (mergeDocstringInfo c3sig (some c3doc)).parameters =
      some { type := "str", required := false,
             description := some "Flag. Defaults to 1.",
             default := some "1" } := by
  exact ⟨by decide, by decide⟩

/-- C3, amended.  Merging any docstring into a structural signature never
changes a parameter type that is not the `"Any"` sentinel; but the
docstring's `default` (when present) always overwrites the parameter's
`default` and forces `required` to `false`, whether or not the signature
had left them unknown. -/
theorem C3_merge_frame (sig : FuncSig) (doc : Option String)
    (params : List (String × ParamInfo)) (pd : ParameterDoc) (n : String)
    (p : ParamInfo) (d : String) :
    (getEntry n sig.parameters = some p → p.type ≠ "Any" →
      ∃ q, getEntry n (mergeDocstringInfo sig doc).parameters = some q ∧
        q.type = p.type) ∧
    (getEntry pd.name params = some p → pd.default = some d →
      getEntry pd.name (mergeParamDoc params pd) = some (mergeFn pd p) ∧
      (mergeFn pd p).default = some d ∧ (mergeFn pd p).required = false) := by
  constructor
  · intro hp ht
    rcases doc with _ | dd
    · exact ⟨p, by simpa [mergeDocstringInfo] using hp, rfl⟩
    · by_cases hdd : dd = ""
      · subst hdd
        exact ⟨p, by simpa [mergeDocstringInfo] using hp, rfl⟩
      · simp only [mergeDocstringInfo]
        rw [if_neg hdd]
        simp only [mergeParsedDoc]
        exact foldl_mergeParamDoc_type _ sig.parameters n p hp ht
  · intro hp hd
    refine ⟨?_, mergeFn_default pd p d hd⟩
    rw [getEntry_mergeParamDoc, if_pos rfl, hp]
    rfl

/-- The docstring parameter record the parser extracts for `y` from
`c3doc`. -/
def c3pd : ParameterDoc :=
  { name := "y", type := none, description := some "Flag. Defaults to 1.",
    default := some "1", required := false }

/-- Witness for the amended C3 at the concrete signature `c3sig`:
`x`'s concrete type survives the merge, and `y`'s default/required are
taken from the docstring record. -/
theorem C3_merge_frame_witness :
    (∃ q, getEntry "x" (mergeDocstringInfo c3sig (some c3doc)).parameters =
        some q ∧ q.type = "int") ∧
    (getEntry "y" (mergeParamDoc c3sig.parameters c3pd) =
      some (mergeFn c3pd { type := "str", required := true }) ∧
     (mergeFn c3pd { type := "str", required := true }).default = some "1" ∧
     (mergeFn c3pd { type := "str", required := true }).required = false) :=
  ⟨(C3_merge_frame c3sig (some c3doc) [] c3pd "x"
      { type := "int", required := false, description := none,
        default := some "5" } "1").1 (by decide) (by decide),
   (C3_merge_frame c3sig (some c3doc) c3sig.parameters c3pd "y"
      { type := "str", required := true } "1").2 (by decide) rfl⟩

/-- C7.  When the docstring parses to exactly one parameter record that
carries a default value (as the Google-style line
`n (int, optional): Count. Defaults to 10.` does), merging it into a
structural signature whose matching parameter has a concrete declared
type yields `required = false` and the captured default text while the
declared type string is preserved verbatim. -/
theorem C7_optional_default_merge (sig : FuncSig) (doc : String)
    (pd : ParameterDoc) (p : ParamInfo) (d : String)
    (hdoc : doc ≠ "")
    (hparse : (DocstringParser.parse doc).parameters = [pd])
    (hdefault : pd.default = some d)
    (hp : getEntry pd.name sig.parameters = some p)
    (htype : p.type ≠ "Any") :
    getEntry pd.name (mergeDocstringInfo sig (some doc)).parameters =
      some (mergeFn pd p) ∧
    (mergeFn pd p).required = false ∧
    (mergeFn pd p).default = some d ∧
    (mergeFn pd p).type = p.type := by
  have h1 : mergeDocstringInfo sig (some doc) =
      mergeParsedDoc sig (DocstringParser.parse doc) := by
    simp [mergeDocstringInfo, hdoc]
  rw [h1]
  simp only [mergeParsedDoc, hparse, List.foldl_cons, List.foldl_nil]
  refine ⟨?_, (mergeFn_default pd p d hdefault).2,
    (mergeFn_default pd p d hdefault).1, mergeFn_type pd p htype⟩
  rw [getEntry_mergeParamDoc, if_pos rfl, hp]
  rfl

/-- The Google-style docstring of the C7 witness. -/
def c7doc : String := "Args:\n    n (int, optional): Count. Defaults to 10."

/-- A signature declaring `n : str` (required, no default). -/
def c7sig : FuncSig :=
  { parameters := [("n", { type := "str", required := true })],
    returns := { type := "Any" } }

/-- The parameter record the Google parser extracts from `c7doc`. -/
def c7pd : ParameterDoc :=
  { name := "n", type := some "int",
    description := some "Count. Defaults to 10.", default := some "10",
    required := false }

/-- Witness for C7: the concrete docstring `c7doc` parses to exactly the
record `c7pd`, and merging into `c7sig` keeps type `"str"` while setting
`required = false` and `default = "10"`. -/
theorem C7_optional_default_merge_witness :
    getEntry "n" (mergeDocstringInfo c7sig (some c7doc)).parameters =
      some (mergeFn c7pd { type := "str", required := true }) ∧
    (mergeFn c7pd { type := "str", required := true }).required = false ∧
    (mergeFn c7pd { type := "str", required := true }).default = some "10" ∧
    (mergeFn c7pd { type := "str", required := true }).type = "str" :=
  C7_optional_default_merge c7sig c7doc c7pd
    { type := "str", required := true } "10"
    (by decide) (by decide) rfl rfl (by decide)

/-- C10.  Converting a detection result to the output model drops every
parameter whose name begins with `*` (the `*args`/`**kwargs` entries that
signature extraction records) and carries every other parameter over with
its type, required flag and description; consequently no serialized
parameter name starts with `*`.  Signature extraction does record the
variable-positional entry under a `*`-prefixed key, so such keys reach
the conversion. -/
theorem C10_star_params_omitted (params : List (String × ParamInfo))
    (args : PyArguments) (rets : Option PyExpr) (v : PyArg)
    (hnodup : (params.map Prod.fst).Nodup)
    (hv : args.vararg = some v) (hk : args.kwonlyargs = [])
    (hkw : args.kwarg = none) :
    (∀ q ∈ Scan.convertParams params, ¬ q.1.data.head? = some '*') ∧
    Scan.convertParams params =
      (params.filter (fun p => !(p.1.data.head? == some '*'))).map
        (fun p => (p.1,
          ({ type := p.2.type, required := p.2.required,
             description := p.2.description } : Scan.ToolParameter))) ∧
    getEntry ("*" ++ v.arg) (extractFunctionSignature args rets).parameters =
      some { type := (match v.ann with
               | some a => astToTypeString a
               | none => "Any"),
             required := false,
             description := some "Variable positional arguments" } := by
  refine ⟨?_, ?_, ?_⟩
  · simp only [Scan.convertParams]
    exact convertFold_star params []
      (fun r hr => absurd hr (List.not_mem_nil r))
  · simp only [Scan.convertParams]
    rw [convertFold_filter]
    have hsub : ((params.filter
        (fun p => !(p.1.data.head? == some '*'))).map Prod.fst).Sublist
        (params.map Prod.fst) :=
      List.Sublist.map Prod.fst (List.filter_sublist params)
    simpa using foldl_setAssoc_append Prod.fst
      (fun p => ({ type := p.2.type, required := p.2.required,
                   description := p.2.description } : Scan.ToolParameter))
      (params.filter (fun p => !(p.1.data.head? == some '*'))) []
      (hsub.nodup hnodup) (by intro x _ hx; simp at hx)
  · simp only [extractFunctionSignature, hv, hk, hkw]
    simp [getEntry, setEntry, getAssoc_setAssoc_self]

/-- Parameters of a tool whose signature carried `x`, `*args` and
`**kwargs`. -/
def c10params : List (String × ParamInfo) :=
  [("x", { type := "str", required := true }),
   ("*args", { type := "Any", required := false,
               description := some "Variable positional arguments" }),
   ("**kwargs", { type := "Any", required := false,
                  description := some "Variable keyword arguments" })]

/-- Arguments `(x: str, *args)` as an `ast.arguments` value. -/
def c10args : PyArguments :=
  { args := [{ arg := "x", ann := some (.name "str") }],
    vararg := some { arg := "args" } }

/-- Witness for C10: the starred entries of `c10params` are dropped, `x`
survives with all its fields, and the extracted signature of `c10args`
holds a `*args` entry. -/
theorem C10_star_params_omitted_witness :
    (∀ q ∈ Scan.convertParams c10params, ¬ q.1.data.head? = some '*') ∧
    Scan.convertParams c10params =
      (c10params.filter (fun p => !(p.1.data.head? == some '*'))).map
        (fun p => (p.1,
          ({ type := p.2.type, required := p.2.required,
             description := p.2.description } : Scan.ToolParameter))) ∧
    getEntry ("*" ++ ({ arg := "args" } : PyArg).arg)
        (extractFunctionSignature c10args none).parameters =
      some { type := (match ({ arg := "args" } : PyArg).ann with
               | some a => astToTypeString a
               | none => "Any"),
             required := false,
             description := some "Variable positional arguments" } :=
  C10_star_params_omitted c10params c10args none { arg := "args" }
    (by decide) rfl rfl rfl

/-! ## Inline Zod schemas for C8

An inline schema in the Zod dialect is quantified over by rendering a
list of fields to text exactly as such schemas are written
(`name: z.type()` with an optional `.optional()` modifier, fields
separated by commas) and running the embedded
`ZodSchemaExtractor.extract_params` scanner on the result. -/

/-- One field of an inline Zod schema. -/
structure ZodField where
  name : String
  ztype : String
  optMarker : Bool
deriving Repr, DecidableEq

/-- The Zod type names `zodTypeMap` recognizes that take no argument. -/
def recognizedZodTypes : List String :=
  ["string", "number", "boolean", "object", "array", "date", "any"]

/-- Characters of the rendered optional marker. -/
def optChars (b : Bool) : List Char :=
  if b then ".optional()".data else []

/-- Characters of one rendered field: `name: z.type()` plus the marker. -/
def zfChars (f : ZodField) : List Char :=
  f.name.data ++ ':' :: ' ' :: 'z' :: '.' ::
    (f.ztype.data ++ '(' :: ')' :: optChars f.optMarker)

/-- Characters of a rendered schema body: fields separated by commas. -/
def zbodyChars : List ZodField → List Char
  | [] => []
  | [f] => zfChars f
  | f :: g :: rest => zfChars f ++ ',' :: zbodyChars (g :: rest)

/-- A rendered inline Zod schema body. -/
def renderZodSchema (fields : List ZodField) : String := ⟨zbodyChars fields⟩

/-- Well-formedness of a field: a non-empty word-character name and a
recognized argument-free type. -/
def zodFieldWf (f : ZodField) : Prop :=
  f.name.data ≠ [] ∧ (∀ c ∈ f.name.data, pyWordChar c = true) ∧
    f.ztype ∈ recognizedZodTypes

instance (f : ZodField) : Decidable (zodFieldWf f) := by
  unfold zodFieldWf
  infer_instance

/-- Every recognized Zod type name is a non-empty word. -/
lemma recognized_props (t : String) (h : t ∈ recognizedZodTypes) :
    t.data ≠ [] ∧ ∀ c ∈ t.data, pyWordChar c = true := by
  simp only [recognizedZodTypes, List.mem_cons, List.not_mem_nil,
    or_false] at h
  rcases h with rfl | rfl | rfl | rfl | rfl | rfl | rfl <;>
    exact ⟨by decide, by decide⟩

/-- Every character of the rendered optional marker is a modifier
character of the field pattern. -/
lemma optChars_mod (b : Bool) : ∀ c ∈ optChars b, zodModChar c = true := by
  cases b <;> decide

/-! ### Anchored-match lemmas for the scanner primitives -/

lemma takeWhile_append_stop (p : Char → Bool) (xs ys : List Char)
    (hall : ∀ c ∈ xs, p c = true)
    (hstop : ∀ c, ys.head? = some c → p c = false) :
    (xs ++ ys).takeWhile p = xs ∧ (xs ++ ys).dropWhile p = ys := by
  induction xs with
  | nil =>
    simp only [List.nil_append]
    cases ys with
    | nil => simp
    | cons y t =>
      have hy := hstop y rfl
      simp [List.takeWhile_cons, List.dropWhile_cons, hy]
  | cons x xs ih =>
    have hx := hall x (List.mem_cons_self _ _)
    have hr := ih (fun c hc => hall c (List.mem_cons_of_mem _ hc))
    simp [List.takeWhile_cons, List.dropWhile_cons, hx, hr.1, hr.2]

lemma expectStr_self_append (lit rest : List Char) :
    expectStr lit (lit ++ rest) = some rest := by
  induction lit with
  | nil => rfl
  | cons c t ih => simp [expectStr, ih]

lemma takeWord_append (xs ys : List Char) (hne : xs ≠ [])
    (hall : ∀ c ∈ xs, pyWordChar c = true)
    (hstop : ∀ c, ys.head? = some c → pyWordChar c = false) :
    takeWord (xs ++ ys) = some (xs, ys) := by
  have h := takeWhile_append_stop pyWordChar xs ys hall hstop
  have hxe : xs.isEmpty = false := by
    cases xs with
    | nil => exact absurd rfl hne
    | cons a t => rfl
  simp [takeWord, h.1, hxe, List.drop_left]

lemma skipWs_cons_false (c : Char) (r : List Char)
    (h : pySpaceChar c = false) : skipWs (c :: r) = c :: r := by
  simp [skipWs, List.dropWhile_cons, h]

lemma skipWs_cons_true (c : Char) (r : List Char)
    (h : pySpaceChar c = true) : skipWs (c :: r) = skipWs r := by
  simp [skipWs, List.dropWhile_cons, h]

lemma expectChar_cons_self (c : Char) (r : List Char) :
    expectChar c (c :: r) = some r := by
  simp [expectChar]

/-- The Zod field pattern matches a rendered field exactly, leaving the
trailing text (which is empty or starts with the comma separator). -/
lemma zodFieldAt_render (f : ZodField) (tail : List Char)
    (hname : f.name.data ≠ [])
    (hnw : ∀ c ∈ f.name.data, pyWordChar c = true)
    (htne : f.ztype.data ≠ [])
    (htw : ∀ c ∈ f.ztype.data, pyWordChar c = true)
    (htail : ∀ c, tail.head? = some c → c = ',') :
    zodFieldAt (zfChars f ++ tail) =
      some (f.name, f.ztype, "", (⟨optChars f.optMarker⟩ : String), tail) := by
  have hassoc : zfChars f ++ tail =
      f.name.data ++ ':' :: ' ' :: 'z' :: '.' ::
        (f.ztype.data ++ '(' :: ')' :: (optChars f.optMarker ++ tail)) := by
    simp [zfChars]
  rw [hassoc]
  have h1 := takeWord_append f.name.data
    (':' :: ' ' :: 'z' :: '.' ::
      (f.ztype.data ++ '(' :: ')' :: (optChars f.optMarker ++ tail)))
    hname hnw
    (fun c hc => by
      simp only [List.head?_cons, Option.some.injEq] at hc
      subst hc; decide)
  have h2 := skipWs_cons_false ':'
    (' ' :: 'z' :: '.' ::
      (f.ztype.data ++ '(' :: ')' :: (optChars f.optMarker ++ tail)))
    (by decide)
  have h3 := expectChar_cons_self ':'
    (' ' :: 'z' :: '.' ::
      (f.ztype.data ++ '(' :: ')' :: (optChars f.optMarker ++ tail)))
  have h4 := skipWs_cons_true ' '
    ('z' :: '.' :: (f.ztype.data ++ '(' :: ')' :: (optChars f.optMarker ++ tail)))
    (by decide)
  have h5 := skipWs_cons_false 'z'
    ('.' :: (f.ztype.data ++ '(' :: ')' :: (optChars f.optMarker ++ tail)))
    (by decide)
  have h6 : expectStr "z.".data
      ('z' :: '.' :: (f.ztype.data ++ '(' :: ')' :: (optChars f.optMarker ++ tail))) =
      some (f.ztype.data ++ '(' :: ')' :: (optChars f.optMarker ++ tail)) := by
    simpa using expectStr_self_append "z.".data
      (f.ztype.data ++ '(' :: ')' :: (optChars f.optMarker ++ tail))
  have h7 := takeWord_append f.ztype.data
    ('(' :: ')' :: (optChars f.optMarker ++ tail)) htne htw
    (fun c hc => by
      simp only [List.head?_cons, Option.some.injEq] at hc
      subst hc; decide)
  have h8 := skipWs_cons_false '('
    (')' :: (optChars f.optMarker ++ tail)) (by decide)
  have h9 := expectChar_cons_self '(' (')' :: (optChars f.optMarker ++ tail))
  have h10 : (')' :: (optChars f.optMarker ++ tail)).takeWhile
      (fun c => c != ')') = [] := by
    simp [List.takeWhile_cons]
  have h11 := expectChar_cons_self ')' (optChars f.optMarker ++ tail)
  have h12 := takeWhile_append_stop zodModChar (optChars f.optMarker) tail
    (optChars_mod f.optMarker)
    (fun c hc => by
      have := htail c hc
      subst this; decide)
  simp only [zodFieldAt, h1, h2, h3, h4, h5, h6, h7, h8, h9, h10,
    List.drop_zero, List.length_nil, h11, h12.1, List.drop_left]

/-- The field pattern never matches at the comma separator. -/
lemma zodFieldAt_comma (cs : List Char) : zodFieldAt (',' :: cs) = none := by
  have h : pyWordChar ',' = false := by decide
  simp [zodFieldAt, takeWord, List.takeWhile_cons, h]

lemma zodScan_nil (fuel : Nat) : zodScan fuel [] = [] := by
  cases fuel <;> rfl

lemma zodScan_found (n : Nat) (cs : List Char) (e1 e2 e3 e4 : String)
    (after : List Char) (hne : cs ≠ [])
    (h : zodFieldAt cs = some (e1, e2, e3, e4, after)) :
    zodScan (n + 1) cs = (e1, e2, e3, e4) :: zodScan n after := by
  cases cs with
  | nil => exact absurd rfl hne
  | cons c cs2 => simp [zodScan, h]

lemma zodScan_skip (n : Nat) (c : Char) (cs : List Char)
    (h : zodFieldAt (c :: cs) = none) :
    zodScan (n + 1) (c :: cs) = zodScan n cs := by
  simp [zodScan, h]

lemma zfChars_length_pos (f : ZodField) (hname : f.name.data ≠ []) :
    0 < (zfChars f).length := by
  have h : 0 < f.name.data.length := List.length_pos.mpr hname
  simp only [zfChars, List.length_append, List.length_cons]
  omega

/-- The fueled `re.finditer` scan of a rendered schema body returns
exactly one tuple per field, in order. -/
lemma zodScan_zbody :
    ∀ (fields : List ZodField) (fuel : Nat),
      (∀ f ∈ fields, zodFieldWf f) →
      (zbodyChars fields).length ≤ fuel →
      zodScan fuel (zbodyChars fields) =
        fields.map (fun f => (f.name, f.ztype, "",
          (⟨optChars f.optMarker⟩ : String))) := by
  intro fields
  induction fields with
  | nil => intro fuel _ _; simp [zbodyChars, zodScan_nil]
  | cons f rest ih =>
    intro fuel hwf hfuel
    obtain ⟨hname, hnw, hty⟩ := hwf f (List.mem_cons_self _ _)
    obtain ⟨htne, htw⟩ := recognized_props f.ztype hty
    cases rest with
    | nil =>
      simp only [zbodyChars] at hfuel ⊢
      have hpos := zfChars_length_pos f hname
      cases fuel with
      | zero => omega
      | succ n =>
        have hmatch := zodFieldAt_render f [] hname hnw htne htw
          (fun c hc => by simp at hc)
        rw [zodScan_found n (zfChars f) f.name f.ztype ""
          (⟨optChars f.optMarker⟩ : String) []
          (by intro hc; rw [hc] at hpos; simp at hpos)
          (by simpa using hmatch)]
        simp [zodScan_nil]
    | cons g rest2 =>
      have hbody : zbodyChars (f :: g :: rest2) =
          zfChars f ++ ',' :: zbodyChars (g :: rest2) := rfl
      rw [hbody] at hfuel ⊢
      have hpos := zfChars_length_pos f hname
      have hlen : (zfChars f ++ ',' :: zbodyChars (g :: rest2)).length =
          (zfChars f).length + 1 + (zbodyChars (g :: rest2)).length := by
        simp
        omega
      cases fuel with
      | zero => omega
      | succ n =>
        have hmatch := zodFieldAt_render f (',' :: zbodyChars (g :: rest2))
          hname hnw htne htw
          (fun c hc => by simpa using hc.symm)
        rw [zodScan_found n (zfChars f ++ ',' :: zbodyChars (g :: rest2))
          f.name f.ztype "" (⟨optChars f.optMarker⟩ : String)
          (',' :: zbodyChars (g :: rest2))
          (by
            intro hc
            have := congrArg List.length hc
            rw [hlen] at this
            simp at this)
          hmatch]
        cases n with
        | zero => omega
        | succ m =>
          rw [zodScan_skip m ',' (zbodyChars (g :: rest2))
            (zodFieldAt_comma _)]
          rw [ih m (fun x hx => hwf x (List.mem_cons_of_mem _ hx))
            (by rw [hlen] at hfuel; omega)]
          simp

/-- Required flag of a rendered field's extracted record: present marker
means optional. -/
lemma zodInfoOf_required (t a : String) :
    (zodInfoOf t a (⟨optChars true⟩ : String)).required = false ∧
    (zodInfoOf t a (⟨optChars false⟩ : String)).required = true := by
  exact ⟨rfl, rfl⟩

/-- Type field of a rendered field's extracted record: with empty
argument text the type is the mapped type name. -/
lemma zodInfoOf_type (t m : String) :
    (zodInfoOf t "" m).type = zodTypeMap t := by
  have h0 : pyStrip "" = "" := rfl
  simp [zodInfoOf, h0]

/-- Lookup in the association list built from one entry per field. -/
lemma getAssoc_map_nodup {α : Type} (g : ZodField → α) :
    ∀ (l : List ZodField) (f : ZodField),
      (l.map ZodField.name).Nodup → f ∈ l →
      getAssoc f.name (l.map (fun x => (x.name, g x))) = some (g f) := by
  intro l
  induction l with
  | nil => intro f _ hf; cases hf
  | cons x rest ih =>
    intro f hnd hf
    simp only [List.map_cons, List.nodup_cons] at hnd
    rcases List.mem_cons.mp hf with rfl | hf2
    · simp [getAssoc]
    · have hne : (x.name == f.name) = false := by
        simp only [beq_eq_false_iff_ne, ne_eq]
        intro hc
        exact hnd.1 (hc ▸ List.mem_map_of_mem ZodField.name hf2)
      simp only [List.map_cons, getAssoc, hne]
      rw [if_neg (by simp [Bool.false_eq_true])]
      exact ih f hnd.2 hf2

/-- The full parameter list `ZodSchemaExtractor.extract_params` builds
from a rendered schema. -/
lemma zodExtractParams_render (fields : List ZodField) (content : String)
    (hwf : ∀ f ∈ fields, zodFieldWf f)
    (hnodup : (fields.map ZodField.name).Nodup) :
    zodExtractParams content (renderZodSchema fields) =
      fields.map (fun f =>
        (f.name, zodInfoOf f.ztype "" (⟨optChars f.optMarker⟩ : String))) := by
  have hdata : (renderZodSchema fields).data = zbodyChars fields := rfl
  simp only [zodExtractParams, hdata]
  rw [zodScan_zbody fields (zbodyChars fields).length hwf (le_refl _)]
  have hstep := foldl_setAssoc_append
    (fun (m : String × String × String × String) => m.1)
    (fun (m : String × String × String × String) =>
      zodInfoOf m.2.1 m.2.2.1 m.2.2.2)
    (fields.map (fun f => (f.name, f.ztype, "",
      (⟨optChars f.optMarker⟩ : String)))) []
    (by simpa [List.map_map, Function.comp] using hnodup)
    (by intro x _ hx; simp at hx)
  simp only [setEntry]
  rw [hstep]
  simp [List.map_map, Function.comp]

/-- C8.  For every inline schema in the Zod dialect whose fields have
distinct word names and recognized argument-free types, extraction
through the registry (the Zod extractor accepts the content) yields one
parameter per field whose `required` flag is `false` exactly when that
field carries the explicit `.optional()` marker and whose type is the
mapped type name; in particular, when exactly one field carries the
marker, exactly one extracted parameter has `required = false`. -/
theorem C8_zod_optional_marker (fields : List ZodField) (content : String)
    (hwf : ∀ f ∈ fields, zodFieldWf f)
    (hnodup : (fields.map ZodField.name).Nodup)
    (hcan : zodCanExtract content = true)
    (hone : fields.countP (fun f => f.optMarker) = 1) :
    (extractSchemaParams factoryInit content
        (renderZodSchema fields)).countP (fun e => !e.2.required) = 1 ∧
    ∀ f ∈ fields,
      ∃ q, getEntry f.name
          (extractSchemaParams factoryInit content
            (renderZodSchema fields)) = some q ∧
        (q.required = false ↔ f.optMarker = true) ∧
        q.type = zodTypeMap f.ztype := by
  have hget : getExtractor factoryInit content = some zodExtractor :=
    List.find?_cons_of_pos _ (by simpa [zodExtractor] using hcan)
  have hparams : extractSchemaParams factoryInit content
      (renderZodSchema fields) =
      fields.map (fun f =>
        (f.name, zodInfoOf f.ztype "" (⟨optChars f.optMarker⟩ : String))) := by
    simp only [extractSchemaParams, hget]
    exact zodExtractParams_render fields content hwf hnodup
  rw [hparams]
  constructor
  · rw [List.countP_map]
    rw [List.countP_congr ?_]
    · exact hone
    · intro f _
      cases hb : f.optMarker <;>
        simp [Function.comp, hb, (zodInfoOf_required f.ztype "").1,
          (zodInfoOf_required f.ztype "").2]
  · intro f hf
    refine ⟨zodInfoOf f.ztype "" (⟨optChars f.optMarker⟩ : String),
      getAssoc_map_nodup _ fields f hnodup hf, ?_, zodInfoOf_type _ _⟩
    cases hb : f.optMarker
    · simp [(zodInfoOf_required f.ztype "").2]
    · simp [(zodInfoOf_required f.ztype "").1]

/-- The two fields of the C8 witness schema. -/
def c8fields : List ZodField :=
  [{ name := "query", ztype := "string", optMarker := false },
   { name := "limit", ztype := "number", optMarker := true }]

/-- Witness for C8 on the schema `query: z.string(),limit:
z.number().optional()` inside a file containing `z.object(`. -/
theorem C8_zod_optional_marker_witness :
    (extractSchemaParams factoryInit "z.object("
        (renderZodSchema c8fields)).countP (fun e => !e.2.required) = 1 ∧
    ∀ f ∈ c8fields,
      ∃ q, getEntry f.name
          (extractSchemaParams factoryInit "z.object("
            (renderZodSchema c8fields)) = some q ∧
        (q.required = false ↔ f.optMarker = true) ∧
        q.type = zodTypeMap f.ztype :=
  C8_zod_optional_marker c8fields "z.object("
    (by decide) (by decide) (by decide) (by decide)

end AgentBom
